import Mathlib

/-!
Grinchmas house scoreboard: the scoring engine of `src/script.js`.

A shallow embedding of the data model and of the state-changing functions of
`src/script.js`, followed by theorems about them.

Modelling conventions.

* A JavaScript number that the program stores is an `Int` or `NaN` (`Num`).
  Arithmetic is exact integer arithmetic; the program's doubles agree with it
  as long as every value stays at or below `2^53` (`maxSafeInteger`). The
  predicates `valueInRange`, `inputsInRange`, `houseInRange` and `appInRange`
  mark that range; statements about typed input and about stored counts are
  made inside it, and `Reachable` follows the page only inside it.
* A JavaScript object used as a string-keyed map is a list of key/value pairs
  in insertion order (`Obj`); only own properties are modelled. A read of a
  name that every object inherits (`objectPrototypeNames`) sees the inherited
  value in the script: `ensureColorBonuses` models that, `toggleColorBonus` is
  exact for names outside that list.
* The global variables of the script (`houses`, `COLOR_BONUSES`, `modalMode`,
  `currentHouseIndex`, `currentColor`) are the fields of `App`; a function that
  mutates them is a function from `App` to `App`.
* The DOM is not modelled: `updateHouseSummary`, `animateNumber` and the
  `classList` changes write only to the page and are left out; of
  `renderColorBonuses` the call of `ensureColorBonuses` is kept.
-/

namespace Grinchmas

/-! ## JavaScript values -/

/-- A stored JavaScript number: an integer or `NaN`. -/
inductive Num where
  | int (n : Int)
  | nan
  deriving DecidableEq, Repr

/-- A string-keyed object with values of type `α`: own properties in insertion order. -/
abbrev Obj (α : Type) := List (String × α)

/-- Property read `obj[k]`: `none` is `undefined`. -/
def Obj.get {α : Type} : Obj α → String → Option α
  | [], _ => none
  | (k', v) :: rest, k => if k' = k then some v else Obj.get rest k

/-- Property write `obj[k] = v`: an existing property keeps its position, a new one is
appended. -/
def Obj.set {α : Type} : Obj α → String → α → Obj α
  | [], k, v => [(k, v)]
  | (k', v') :: rest, k, v => if k' = k then (k', v) :: rest else (k', v') :: Obj.set rest k v

/-- Own property names, in order (`Object.keys`). -/
def Obj.keys {α : Type} (o : Obj α) : List String := o.map Prod.fst

/-- Truthiness of a number read from an object: `undefined`, `NaN` and `0` are falsy. -/
def truthy : Option Num → Bool
  | some (Num.int n) => n != 0
  | _ => false

/-- The expression `x || 0` for a number `x` read from an object. -/
def orZero : Option Num → Int
  | some (Num.int n) => n
  | _ => 0

/-- The expression `x + d` of `obj[k] += d`: `undefined + d` and `NaN + d` are `NaN`. -/
def jsAdd : Option Num → Int → Num
  | some (Num.int n), d => Num.int (n + d)
  | _, _ => Num.nan

/-! ## Data model (script.js lines 1-83) -/

/-- An entry of `ITEM_DEFS`. -/
structure ItemDef where
  key : String
  label : String
  color : String
  kind : String
  deriving DecidableEq, Repr

/-- An entry of `CARD_DEFS`. -/
structure CardDef where
  key : String
  label : String
  factor : Int
  appliesTo : ItemDef → Bool

def item_redGift : ItemDef := { key := "redGift", label := "R🎁", color := "red", kind := "gift" }

def item_blueGift : ItemDef :=
  { key := "blueGift", label := "B🎁", color := "blue", kind := "gift" }

def item_redOrn : ItemDef := { key := "redOrn", label := "R❄", color := "red", kind := "orn" }

def item_blueOrn : ItemDef := { key := "blueOrn", label := "B❄", color := "blue", kind := "orn" }

def ITEM_DEFS : List ItemDef := [item_redGift, item_blueGift, item_redOrn, item_blueOrn]

def card_x3RedAll : CardDef :=
  { key := "x3RedAll", label := "x3 for RED items", factor := 3,
    appliesTo := fun item => item.color = "red" }

def card_x2BlueAll : CardDef :=
  { key := "x2BlueAll", label := "x2 for BLUE items", factor := 2,
    appliesTo := fun item => item.color = "blue" }

def card_x4RedGift : CardDef :=
  { key := "x4RedGift", label := "x4 for RED gifts", factor := 4,
    appliesTo := fun item => item.color = "red" && item.kind = "gift" }

def CARD_DEFS : List CardDef := [card_x3RedAll, card_x2BlueAll, card_x4RedGift]

def COLORS : List String := ["orange", "pink", "red", "yellow"]

/-- A house record. -/
structure House where
  name : String
  color : String
  items : Obj Num
  cards : Obj Num
  points : Int
  deriving DecidableEq, Repr

/-- The table `COLOR_BONUSES`: colour ↦ (item key ↦ bonus). -/
abbrev BonusTable := Obj (Obj Num)

def makeEmptyHouse (name color : String) : House :=
  { name := name
    color := color
    items := ITEM_DEFS.foldl (fun items d => Obj.set items d.key (Num.int 0)) []
    cards := CARD_DEFS.foldl (fun cards d => Obj.set cards d.key (Num.int 0)) []
    points := 0 }

/-! ## Scoring (script.js lines 87-121) -/

/-- The loop `for (let i = 0; i < cardCount; i++) itemMultiplier *= factor`, by the number
of iterations left. -/
def mulLoop (factor : Int) : Nat → Int → Int
  | 0, m => m
  | n + 1, m => mulLoop factor n (m * factor)

/-- Body of `CARD_DEFS.forEach(cardDef => ...)` inside `calculateHousePoints`. -/
def cardStep (house : House) (itemDef : ItemDef) (itemMultiplier : Int) (cardDef : CardDef) :
    Int :=
  let cardCount := orZero (Obj.get house.cards cardDef.key)
  if cardCount = 0 then itemMultiplier
  else if cardDef.appliesTo itemDef then mulLoop cardDef.factor cardCount.toNat itemMultiplier
  else itemMultiplier

/-- The variable `baseValue` of `calculateHousePoints`. -/
def baseValue (bonuses : BonusTable) (house : House) (itemDef : ItemDef) : Int :=
  let colorBonuses := (Obj.get bonuses house.color).getD []
  let bonusForItem := orZero (Obj.get colorBonuses itemDef.key)
  1 + bonusForItem

/-- The variable `itemMultiplier` of `calculateHousePoints` after the card loop. -/
def itemMultiplier (house : House) (itemDef : ItemDef) : Int :=
  CARD_DEFS.foldl (cardStep house itemDef) 1

/-- Body of `ITEM_DEFS.forEach(itemDef => ...)` inside `calculateHousePoints`. -/
def itemStep (bonuses : BonusTable) (house : House) (total : Int) (itemDef : ItemDef) : Int :=
  let count := orZero (Obj.get house.items itemDef.key)
  if count = 0 then total
  else total + count * baseValue bonuses house itemDef * itemMultiplier house itemDef

/-- The value `total` that `calculateHousePoints(house)` computes and returns. -/
def housePoints (bonuses : BonusTable) (house : House) : Int :=
  ITEM_DEFS.foldl (itemStep bonuses house) 0

/-- The function `calculateHousePoints(house)`: the returned total and the mutated house. -/
def calculateHousePoints (bonuses : BonusTable) (house : House) : Int × House :=
  let total := housePoints bonuses house
  (total, { house with points := total })

/-- The function `calculateTotalPoints()`: `houses.reduce` with the mutation of each house
made explicit; returns the sum and the houses after the pass. -/
def calculateTotalPoints (bonuses : BonusTable) (houses : List House) : Int × List House :=
  houses.foldl
    (fun acc h =>
      let r := calculateHousePoints bonuses h
      (acc.1 + r.1, acc.2 ++ [r.2]))
    (0, [])

/-! ## Input clamping (script.js lines 557-560) -/

/-- A value handed to `toNonNegativeInt`: the `.value` string of an input element, the
number `0` (the script passes the literal `0` when the element is missing), `undefined` or
`null`. -/
inductive JsVal where
  | str (s : String)
  | zero
  | undefined
  | null
  deriving DecidableEq, Repr

/-- The abstract operation `ToString` on the values above. -/
def jsToString : JsVal → String
  | JsVal.str s => s
  | JsVal.zero => "0"
  | JsVal.undefined => "undefined"
  | JsVal.null => "null"

/-- White space and line terminators of ECMAScript (`StrWhiteSpaceChar`). -/
def isJsWhiteSpace (c : Char) : Bool :=
  let v := c.toNat
  v = 9 || v = 10 || v = 11 || v = 12 || v = 13 || v = 32 || v = 0xA0 || v = 0x1680 ||
  (0x2000 ≤ v && v ≤ 0x200A) || v = 0x2028 || v = 0x2029 || v = 0x202F || v = 0x205F ||
  v = 0x3000 || v = 0xFEFF

/-- Decimal digit test. -/
def isDecDigit (c : Char) : Bool := 48 ≤ c.toNat && c.toNat ≤ 57

/-- Value of a run of decimal digits, most significant first (the exact integer). -/
def digitsValue (cs : List Char) : Nat :=
  cs.foldl (fun acc c => acc * 10 + (c.toNat - 48)) 0

/-- The built-in `parseInt(string, 10)` on a list of characters: skip leading white
space, read an optional sign, take the longest run of decimal digits and ignore the rest;
`none` is `NaN`. The result here is the exact integer the digits denote. The built-in
returns the double nearest to it: the same number when its magnitude is at most `2^53`, a
rounded value or an infinity beyond. -/
def parseIntChars (cs : List Char) : Option Int :=
  let s := cs.dropWhile isJsWhiteSpace
  let negative := s.head? = some '-'
  let s := if s.head? = some '-' ∨ s.head? = some '+' then s.tail else s
  let z := s.takeWhile isDecDigit
  if z = [] then none
  else if negative then some (-(digitsValue z : Int)) else some (digitsValue z : Int)

/-- The call `parseInt(value, 10)`. -/
def parseInt (value : JsVal) : Option Int := parseIntChars (jsToString value).data

/-- The function `toNonNegativeInt(value)`, on the exact integer of `parseInt`: it is what
the script computes whenever the result is at most `2^53` (`valueInRange`); for a longer
digit run the script returns a rounded double or `Infinity`, which this model does not
represent. -/
def toNonNegativeInt (value : JsVal) : Int :=
  match parseInt value with
  | none => 0
  | some n => if n < 0 then 0 else n

/-! ## Application state and event handlers -/

/-- A thrown JavaScript exception. -/
inductive JsError where
  | typeError
  deriving DecidableEq, Repr

/-- The global variables of the script. -/
structure App where
  houses : List House
  COLOR_BONUSES : BonusTable
  modalMode : String
  currentHouseIndex : Option Num
  currentColor : Option String
  deriving DecidableEq, Repr

/-- Array read `houses[i]`: `none` is `undefined` (negative, `NaN` or past the end). -/
def houseAt (houses : List House) : Num → Option House
  | Num.int i => if 0 ≤ i then houses.get? i.toNat else none
  | Num.nan => none

/-- The string method `trim()`. -/
def jsTrim (cs : List Char) : List Char :=
  ((cs.dropWhile isJsWhiteSpace).reverse.dropWhile isJsWhiteSpace).reverse

/-- The property names every object inherits from `Object.prototype`. A read `obj[name]`
of one of them on an object without an own property of that name yields the inherited
function or object, which is truthy. -/
def objectPrototypeNames : List String :=
  ["__defineGetter__", "__defineSetter__", "__lookupGetter__", "__lookupSetter__",
    "__proto__", "constructor", "hasOwnProperty", "isPrototypeOf", "propertyIsEnumerable",
    "toLocaleString", "toString", "valueOf"]

/-- The function `ensureColorBonuses(color)`, as its effect on `COLOR_BONUSES`. The test
`!COLOR_BONUSES[color]` is false when the table has a row for the colour and also when the
colour is an inherited name; only otherwise a row of zeros is written. -/
def ensureColorBonuses (bonuses : BonusTable) (color : String) : BonusTable :=
  match Obj.get bonuses color with
  | some _ => bonuses
  | none =>
    if color ∈ objectPrototypeNames then bonuses
    else
      Obj.set bonuses color
        [("redGift", Num.int 0), ("blueGift", Num.int 0), ("redOrn", Num.int 0),
          ("blueOrn", Num.int 0)]

/-- The function `renderColorBonuses(color)`, as its effect on `COLOR_BONUSES`: it returns
for a falsy colour and otherwise calls `ensureColorBonuses`; the rest writes to the page. -/
def renderColorBonuses (bonuses : BonusTable) (color : String) : BonusTable :=
  if color = "" then bonuses else ensureColorBonuses bonuses color

/-- The state after the script has loaded (lines 43-65). The colours are the literals of
lines 44-51, which `normalizeColor` (trim and lower case) returns as they are. -/
def startup : App :=
  { houses :=
      [ makeEmptyHouse "Orange 1" "orange",
        makeEmptyHouse "Pink 1" "pink",
        makeEmptyHouse "Red 1" "red",
        makeEmptyHouse "Yellow 1" "yellow",
        makeEmptyHouse "Orange 2" "orange",
        makeEmptyHouse "Pink 2" "pink",
        makeEmptyHouse "Red 2" "red",
        makeEmptyHouse "Yellow 2" "yellow" ]
    COLOR_BONUSES :=
      COLORS.foldl ensureColorBonuses
        [ ("yellow", [("redGift", Num.int 0), ("blueGift", Num.int 0), ("redOrn", Num.int 0),
            ("blueOrn", Num.int 0)]),
          ("red", [("redGift", Num.int 0), ("blueGift", Num.int 0), ("redOrn", Num.int 0),
            ("blueOrn", Num.int 0)]),
          ("orange", [("redGift", Num.int 0), ("blueGift", Num.int 0), ("redOrn", Num.int 0),
            ("blueOrn", Num.int 0)]),
          ("pink", [("redGift", Num.int 0), ("blueGift", Num.int 0), ("redOrn", Num.int 0),
            ("blueOrn", Num.int 0)]) ]
    modalMode := "house"
    currentHouseIndex := none
    currentColor := none }

/-- The assignments of `openHouseModal(index)` to the script's variables. -/
def openHouseModal (index : Num) (app : App) : App :=
  { app with modalMode := "house", currentHouseIndex := some index, currentColor := none }

/-- The function `openColorModal(color)` (the declaration of lines 655-695, which replaces
the one of lines 203-261): the assignments to the script's variables and the call of
`renderColorBonuses(color)`. -/
def openColorModal (color : String) (app : App) : App :=
  { app with
    modalMode := "color"
    currentHouseIndex := none
    currentColor := some color
    COLOR_BONUSES := renderColorBonuses app.COLOR_BONUSES color }

/-- The function `closeHouseModal()`. -/
def closeHouseModal (app : App) : App :=
  { app with currentHouseIndex := none, currentColor := none, modalMode := "house" }

/-- The raw values the Save handler passes to `toNonNegativeInt`
(`inp ? inp.value : 0` for each of the seven inputs). -/
structure Inputs where
  redGift : JsVal
  blueGift : JsVal
  redOrn : JsVal
  blueOrn : JsVal
  x3RedAll : JsVal
  x2BlueAll : JsVal
  x4RedGift : JsVal
  deriving DecidableEq, Repr

/-- House branch of the Save handler, lines 287-296: overwrite the seven counts of
`house` and recompute its points. -/
def overwriteHouse (bonuses : BonusTable) (inp : Inputs) (house : House) : House :=
  let items := Obj.set house.items "redGift" (Num.int (toNonNegativeInt inp.redGift))
  let items := Obj.set items "blueGift" (Num.int (toNonNegativeInt inp.blueGift))
  let items := Obj.set items "redOrn" (Num.int (toNonNegativeInt inp.redOrn))
  let items := Obj.set items "blueOrn" (Num.int (toNonNegativeInt inp.blueOrn))
  let cards := Obj.set house.cards "x3RedAll" (Num.int (toNonNegativeInt inp.x3RedAll))
  let cards := Obj.set cards "x2BlueAll" (Num.int (toNonNegativeInt inp.x2BlueAll))
  let cards := Obj.set cards "x4RedGift" (Num.int (toNonNegativeInt inp.x4RedGift))
  (calculateHousePoints bonuses { house with items := items, cards := cards }).2

/-- Colour branch of the Save handler, lines 307-312: add the four item deltas to
`house` and recompute its points. -/
def addToHouse (bonuses : BonusTable) (inp : Inputs) (house : House) : House :=
  let items := Obj.set house.items "redGift"
    (jsAdd (Obj.get house.items "redGift") (toNonNegativeInt inp.redGift))
  let items := Obj.set items "blueGift"
    (jsAdd (Obj.get items "blueGift") (toNonNegativeInt inp.blueGift))
  let items := Obj.set items "redOrn"
    (jsAdd (Obj.get items "redOrn") (toNonNegativeInt inp.redOrn))
  let items := Obj.set items "blueOrn"
    (jsAdd (Obj.get items "blueOrn") (toNonNegativeInt inp.blueOrn))
  (calculateHousePoints bonuses { house with items := items }).2

/-- The click listener of the Save button (lines 273-318; the listeners registered in
`attachModalHandlers` and at line 699 have the same body). -/
def btnSaveHandler (inp : Inputs) (app : App) : Except JsError App :=
  if app.modalMode = "house" then
    match app.currentHouseIndex with
    | none => Except.ok app
    | some i =>
      match houseAt app.houses i, i with
      | some house, Num.int n =>
        Except.ok (closeHouseModal
          { app with houses := app.houses.set n.toNat (overwriteHouse app.COLOR_BONUSES inp house) })
      | _, _ => Except.error JsError.typeError
  else if app.modalMode = "color" then
    match app.currentColor with
    | none => Except.ok app
    | some currentColor =>
      if currentColor = "" then Except.ok app
      else
        Except.ok (closeHouseModal
          { app with
            houses := app.houses.map (fun house =>
              if house.color ≠ currentColor then house
              else addToHouse app.COLOR_BONUSES inp house) })
  else Except.ok (closeHouseModal app)

/-- One click on Save: every registered listener runs in turn, each with the input
values it reads; a listener that throws leaves the variables as they were and the next
one still runs. -/
def btnSaveClick (listeners : List Inputs) (app : App) : App :=
  listeners.foldl
    (fun a inp =>
      match btnSaveHandler inp a with
      | Except.ok a' => a'
      | Except.error _ => a)
    app

/-- The function `toggleColorBonus(color, itemKey)`. The reads `COLOR_BONUSES[color]` and
`COLOR_BONUSES[color][itemKey]` are taken as reads of own properties, which is what the
script does when neither name is in `objectPrototypeNames`; for those names the script
reads an inherited value and may write to a built-in object, which is not modelled. The
call of `renderColorBonuses(color)` at line 626 finds the row in place and writes
nothing. -/
def toggleColorBonus (color itemKey : String) (app : App) : App :=
  if color = "" ∨ itemKey = "" then app
  else
    let bonuses := ensureColorBonuses app.COLOR_BONUSES color
    let row := (Obj.get bonuses color).getD []
    let row := Obj.set row itemKey (if truthy (Obj.get row itemKey) then Num.int 0 else Num.int 1)
    let bonuses := Obj.set bonuses color row
    { app with
      COLOR_BONUSES := bonuses
      houses := app.houses.map (fun house =>
        if house.color = color then (calculateHousePoints bonuses house).2 else house) }

/-- The built-in `Object.fromEntries` on a list of key/value pairs. -/
def Obj.fromEntries {α : Type} (entries : List (String × α)) : Obj α :=
  entries.foldl (fun o e => Obj.set o e.1 e.2) []

/-- The reset of one house at the end of a scoring round (lines 345-347). -/
def resetHouse (bonuses : BonusTable) (house : House) : House :=
  (calculateHousePoints bonuses
    { house with
      items := Obj.fromEntries (ITEM_DEFS.map (fun d => (d.key, Num.int 0)))
      cards := Obj.fromEntries (CARD_DEFS.map (fun c => (c.key, Num.int 0))) }).2

/-- The click listener of the Score Round button (lines 331-350): the total it displays
and the state it leaves. -/
def btnScoreRoundHandler (app : App) : Int × App :=
  let houses := app.houses.map (fun h => (calculateHousePoints app.COLOR_BONUSES h).2)
  let r := calculateTotalPoints app.COLOR_BONUSES houses
  (r.1, { app with houses := r.2.map (resetHouse app.COLOR_BONUSES) })

/-! ## The scoring formula in the words of the specification -/

/-- Count of an item in a house, read as the scoring code reads it (`|| 0`). -/
def itemCount (house : House) (itemKey : String) : Int := orZero (Obj.get house.items itemKey)

/-- Number of copies of a card in a house, read as the scoring code reads it (`|| 0`). -/
def cardCount (house : House) (cardKey : String) : Int := orZero (Obj.get house.cards cardKey)

/-- Bonus of a colour for an item, read as the scoring code reads it (`|| {}`, `|| 0`). -/
def colorBonus (bonuses : BonusTable) (color itemKey : String) : Int :=
  orZero (Obj.get ((Obj.get bonuses color).getD []) itemKey)

/-- The spec's `itemMultiplier`: product over all card types whose `appliesTo` holds for the
item of `factor ^ copies`. -/
def specMultiplier (house : House) (itemDef : ItemDef) : Int :=
  ((CARD_DEFS.filter (fun c => c.appliesTo itemDef)).map
    (fun c => c.factor ^ (cardCount house c.key).toNat)).prod

/-- The spec's scoring formula: sum over the item types of
`count × (1 + bonus) × itemMultiplier`. -/
def specPoints (bonuses : BonusTable) (house : House) : Int :=
  (ITEM_DEFS.map (fun d =>
    itemCount house d.key * (1 + colorBonus bonuses house.color d.key) *
      specMultiplier house d)).sum

/-- The term `count * baseValue * itemMultiplier` that line 112 adds to `total` for one
item type: the contribution of that item to the house's points. -/
def itemContribution (bonuses : BonusTable) (house : House) (itemDef : ItemDef) : Int :=
  itemCount house itemDef.key * baseValue bonuses house itemDef * itemMultiplier house itemDef

/-! ## Derived operations and predicates used in the statements -/

/-- One more copy of a card: the card count of `c` is set to the count read before plus
one. -/
def addCardCopy (house : House) (c : CardDef) : House :=
  { house with cards := Obj.set house.cards c.key (Num.int (cardCount house c.key + 1)) }

/-- The items object after a reset: every key of `ITEM_DEFS` with count 0. -/
def zeroItems : Obj Num :=
  [("redGift", Num.int 0), ("blueGift", Num.int 0), ("redOrn", Num.int 0),
    ("blueOrn", Num.int 0)]

/-- The cards object after a reset: every key of `CARD_DEFS` with count 0. -/
def zeroCards : Obj Num :=
  [("x3RedAll", Num.int 0), ("x2BlueAll", Num.int 0), ("x4RedGift", Num.int 0)]

/-- Whether a value read from an object is a number other than `NaN`. -/
def isNumber : Option Num → Bool
  | some (Num.int _) => true
  | _ => false

/-- Whether the house holds a number (not `NaN`, not missing) for every item key. -/
def itemsNumeric (house : House) : Bool :=
  ITEM_DEFS.all (fun d => isNumber (Obj.get house.items d.key))

/-- The user opens the colour modal for `color` and clicks Save. -/
def saveColorDelta (color : String) (listeners : List Inputs) (app : App) : App :=
  btnSaveClick listeners (openColorModal color app)

/-- The user opens the house modal for house `index` and clicks Save. -/
def saveHouseEdit (index : Num) (listeners : List Inputs) (app : App) : App :=
  btnSaveClick listeners (openHouseModal index app)

/-- The stored bonus `COLOR_BONUSES[color][itemKey]`; `none` when the colour or the key is
absent. -/
def bonusAt (bonuses : BonusTable) (color itemKey : String) : Option Num :=
  (Obj.get bonuses color).bind (fun row => Obj.get row itemKey)

/-- The value `toggleColorBonus` writes at line 625. -/
def flipped (old : Option Num) : Num := if truthy old then Num.int 0 else Num.int 1

/-- Whether a value read from an object is a count: a number that is not `NaN` and not
negative. -/
def isCount : Option Num → Bool
  | some (Num.int n) => decide (0 ≤ n)
  | _ => false

/-- Remove one leading sign character. -/
def dropSign : List Char → List Char
  | '-' :: cs => cs
  | '+' :: cs => cs
  | cs => cs

/-- Whether the characters are an exponent part: `e` or `E`, an optional sign and at least
one digit, and nothing else. -/
def isExponentPart : List Char → Bool
  | [] => false
  | c :: cs => (c = 'e' || c = 'E') && dropSign cs ≠ [] && (dropSign cs).all isDecDigit

/-- Numeric text in the ordinary sense (not code of the script; it fixes what "non-numeric"
means in the statement about clamping): after trimming white space, an optional sign,
decimal digits with an optional fraction (at least one digit in all), an optional exponent,
and nothing else. -/
def isNumericText (s : String) : Bool :=
  let cs := dropSign (jsTrim s.data)
  let intPart := cs.takeWhile isDecDigit
  let rest := cs.dropWhile isDecDigit
  let frac := if rest.head? = some '.' then rest.tail.takeWhile isDecDigit else []
  let rest := if rest.head? = some '.' then rest.tail.dropWhile isDecDigit else rest
  (intPart ≠ [] || frac ≠ []) && (rest = [] || isExponentPart rest)

/-- Inputs of the Save handler with every field empty. -/
def emptyInputs : Inputs :=
  { redGift := JsVal.str "", blueGift := JsVal.str "", redOrn := JsVal.str "",
    blueOrn := JsVal.str "", x3RedAll := JsVal.str "", x2BlueAll := JsVal.str "",
    x4RedGift := JsVal.str "" }

/-- The scenario of the specification: on the startup board, house 2 ("Red 1") is saved
with `redGift = 2` and one `x4RedGift` card. -/
def redScenario : App :=
  btnSaveClick
    [{ emptyInputs with redGift := JsVal.str "2", x4RedGift := JsVal.str "1" }]
    (openHouseModal (Num.int 2) startup)

/-- The largest integer up to which every integer is a double: `2^53`. -/
def maxSafeInteger : Int := 9007199254740992

/-- The clamped value of an input is at most `2^53`: for such an input the double the
script computes in `toNonNegativeInt` is the integer computed here. -/
def valueInRange (value : JsVal) : Bool := decide (toNonNegativeInt value ≤ maxSafeInteger)

/-- All seven inputs of a Save click are in range. -/
def inputsInRange (inp : Inputs) : Bool :=
  valueInRange inp.redGift && valueInRange inp.blueGift && valueInRange inp.redOrn &&
  valueInRange inp.blueOrn && valueInRange inp.x3RedAll && valueInRange inp.x2BlueAll &&
  valueInRange inp.x4RedGift

/-- A house on which the script's double arithmetic is exact: every item and card key
holds a non-negative integer of at most `2^53`, the bonuses of its colour are not
negative, and its score is at most `2^53`. All terms of the score are then non-negative, so
every intermediate value of `calculateHousePoints` is an integer of at most `2^53`. -/
def houseInRange (bonuses : BonusTable) (house : House) : Bool :=
  ITEM_DEFS.all (fun d =>
    isCount (Obj.get house.items d.key) && decide (itemCount house d.key ≤ maxSafeInteger) &&
      decide (0 ≤ colorBonus bonuses house.color d.key)) &&
  CARD_DEFS.all (fun c =>
    isCount (Obj.get house.cards c.key) && decide (cardCount house c.key ≤ maxSafeInteger)) &&
  decide (housePoints bonuses house ≤ maxSafeInteger)

/-- Every house of the state is in range. -/
def appInRange (app : App) : Bool := app.houses.all (houseInRange app.COLOR_BONUSES)

/-- The states the page reaches while its numbers stay in the range where doubles are
exact: the state after loading, and from a reachable state the state after opening the
house modal for any index, opening the colour modal for any colour, closing the modal, a
click on Save (any number of listeners, input values in range, resulting state in range),
a call of `toggleColorBonus` for a colour and an item key that are not inherited names
(resulting state in range), or a click on Score Round. A house edit is `openHouse`
followed by `save`, a colour delta is `openColor` followed by `save`; one click on a bonus
button is one or more `toggle` steps. -/
inductive Reachable : App → Prop
  | startup : Reachable startup
  | openHouse {a : App} (index : Num) : Reachable a → Reachable (openHouseModal index a)
  | openColor {a : App} (color : String) : Reachable a → Reachable (openColorModal color a)
  | close {a : App} : Reachable a → Reachable (closeHouseModal a)
  | save {a : App} (listeners : List Inputs) : Reachable a →
      (∀ inp ∈ listeners, inputsInRange inp = true) →
      appInRange (btnSaveClick listeners a) = true →
      Reachable (btnSaveClick listeners a)
  | toggle {a : App} (color itemKey : String) : Reachable a →
      color ∉ objectPrototypeNames → itemKey ∉ objectPrototypeNames →
      appInRange (toggleColorBonus color itemKey a) = true →
      Reachable (toggleColorBonus color itemKey a)
  | scoreRound {a : App} : Reachable a → Reachable (btnScoreRoundHandler a).2

/-- The house with the count of one card replaced by `v`; everything else as it is. -/
def setCardCount (house : House) (cardKey : String) (v : Num) : House :=
  { house with cards := Obj.set house.cards cardKey v }

/-! ## Lemmas on objects -/

theorem Obj.get_set_self {α : Type} (o : Obj α) (k : String) (v : α) :
    Obj.get (Obj.set o k v) k = some v := by
  induction o with
  | nil => simp [Obj.set, Obj.get]
  | cons p rest ih =>
    obtain ⟨k', v'⟩ := p
    by_cases h : k' = k
    · simp [Obj.set, Obj.get, h]
    · simp [Obj.set, Obj.get, h, ih]

theorem Obj.get_set_other {α : Type} (o : Obj α) (k k2 : String) (v : α) (hne : k ≠ k2) :
    Obj.get (Obj.set o k v) k2 = Obj.get o k2 := by
  induction o with
  | nil => simp [Obj.set, Obj.get, hne]
  | cons p rest ih =>
    obtain ⟨k', v'⟩ := p
    by_cases h : k' = k
    · subst h
      simp [Obj.set, Obj.get, hne]
    · by_cases h2 : k' = k2
      · subst h2
        simp [Obj.set, Obj.get, h]
      · simp [Obj.set, Obj.get, h, h2, ih]

theorem Obj.set_get_same {α : Type} (o : Obj α) (k : String) (v : α)
    (h : Obj.get o k = some v) : Obj.set o k v = o := by
  induction o with
  | nil => simp [Obj.get] at h
  | cons p rest ih =>
    obtain ⟨k', v'⟩ := p
    by_cases hk : k' = k
    · simp [Obj.get, hk] at h
      simp [Obj.set, hk, h]
    · simp [Obj.get, hk] at h
      simp [Obj.set, hk, ih h]

theorem Obj.set_set {α : Type} (o : Obj α) (k : String) (v w : α) :
    Obj.set (Obj.set o k v) k w = Obj.set o k w := by
  induction o with
  | nil => simp [Obj.set]
  | cons p rest ih =>
    obtain ⟨k', v'⟩ := p
    by_cases hk : k' = k
    · simp [Obj.set, hk]
    · simp [Obj.set, hk, ih]

theorem Obj.keys_set_of_get {α : Type} (o : Obj α) (k : String) (v w : α)
    (h : Obj.get o k = some w) : Obj.keys (Obj.set o k v) = Obj.keys o := by
  induction o with
  | nil => simp [Obj.get] at h
  | cons p rest ih =>
    obtain ⟨k', v'⟩ := p
    by_cases hk : k' = k
    · simp [Obj.set, Obj.keys, hk]
    · simp [Obj.get, hk] at h
      have := ih h
      simp [Obj.keys] at this
      simp [Obj.set, Obj.keys, hk, this]

/-! ## Lemmas on the scoring loops -/

theorem mulLoop_eq (factor : Int) (n : Nat) (m : Int) : mulLoop factor n m = m * factor ^ n := by
  induction n generalizing m with
  | zero => simp [mulLoop]
  | succ n ih => rw [mulLoop, ih, pow_succ]; ring

theorem cardStep_eq (house : House) (itemDef : ItemDef) (m : Int) (c : CardDef) :
    cardStep house itemDef m c =
      if c.appliesTo itemDef then m * c.factor ^ (cardCount house c.key).toNat else m := by
  unfold cardStep cardCount
  by_cases h0 : orZero (Obj.get house.cards c.key) = 0
  · simp [h0]
  · by_cases ha : c.appliesTo itemDef = true
    · simp [h0, ha, mulLoop_eq]
    · simp [h0, ha]

theorem foldl_cardStep (house : House) (itemDef : ItemDef) (cs : List CardDef) (m : Int) :
    cs.foldl (cardStep house itemDef) m =
      m * ((cs.filter (fun c => c.appliesTo itemDef)).map
        (fun c => c.factor ^ (cardCount house c.key).toNat)).prod := by
  induction cs generalizing m with
  | nil => simp
  | cons c rest ih =>
    rw [List.foldl_cons, ih, cardStep_eq]
    by_cases ha : c.appliesTo itemDef = true
    · simp [ha, List.filter_cons, mul_assoc]
    · simp [ha, List.filter_cons]

theorem itemMultiplier_eq_spec (house : House) (itemDef : ItemDef) :
    itemMultiplier house itemDef = specMultiplier house itemDef := by
  unfold itemMultiplier specMultiplier
  rw [foldl_cardStep, one_mul]

theorem baseValue_eq (bonuses : BonusTable) (house : House) (itemDef : ItemDef) :
    baseValue bonuses house itemDef = 1 + colorBonus bonuses house.color itemDef.key := rfl

theorem itemStep_eq (bonuses : BonusTable) (house : House) (total : Int) (d : ItemDef) :
    itemStep bonuses house total d = total + itemContribution bonuses house d := by
  unfold itemStep itemContribution itemCount
  by_cases h0 : orZero (Obj.get house.items d.key) = 0
  · simp [h0]
  · simp [h0]

theorem foldl_itemStep (bonuses : BonusTable) (house : House) (ds : List ItemDef) (total : Int) :
    ds.foldl (itemStep bonuses house) total =
      total + (ds.map (itemContribution bonuses house)).sum := by
  induction ds generalizing total with
  | nil => simp
  | cons d rest ih => rw [List.foldl_cons, ih, itemStep_eq]; simp [add_assoc]

theorem housePoints_eq_sum (bonuses : BonusTable) (house : House) :
    housePoints bonuses house = (ITEM_DEFS.map (itemContribution bonuses house)).sum := by
  unfold housePoints
  rw [foldl_itemStep, zero_add]

theorem itemContribution_eq_spec (bonuses : BonusTable) (house : House) (d : ItemDef) :
    itemContribution bonuses house d =
      itemCount house d.key * (1 + colorBonus bonuses house.color d.key) *
        specMultiplier house d := by
  unfold itemContribution
  rw [baseValue_eq, itemMultiplier_eq_spec]

theorem housePoints_eq_spec (bonuses : BonusTable) (house : House) :
    housePoints bonuses house = specPoints bonuses house := by
  rw [housePoints_eq_sum]
  unfold specPoints
  congr 1
  apply List.map_congr_left
  intro d _
  exact itemContribution_eq_spec bonuses house d

/-- The scoring value does not read the cached `points` field. -/
theorem housePoints_points (bonuses : BonusTable) (house : House) (p : Int) :
    housePoints bonuses { house with points := p } = housePoints bonuses house := rfl

theorem calculateTotalPoints_foldl (bonuses : BonusTable) (houses : List House)
    (acc : Int × List House) :
    houses.foldl
        (fun acc h =>
          let r := calculateHousePoints bonuses h
          (acc.1 + r.1, acc.2 ++ [r.2])) acc =
      (acc.1 + (houses.map (housePoints bonuses)).sum,
        acc.2 ++ houses.map (fun h => (calculateHousePoints bonuses h).2)) := by
  induction houses generalizing acc with
  | nil => simp
  | cons h rest ih =>
    rw [List.foldl_cons, ih]
    simp [calculateHousePoints, add_assoc]

theorem calculateTotalPoints_eq (bonuses : BonusTable) (houses : List House) :
    calculateTotalPoints bonuses houses =
      ((houses.map (housePoints bonuses)).sum,
        houses.map (fun h => (calculateHousePoints bonuses h).2)) := by
  unfold calculateTotalPoints
  rw [calculateTotalPoints_foldl]
  simp

/-- Product over the applicable cards when exactly one card's exponent is raised: the
product is multiplied by that card's factor. -/
theorem prod_applicable_bump (p : CardDef → Bool) (f g : CardDef → Int) (c : CardDef)
    (cs : List CardDef) (hnd : (cs.map CardDef.key).Nodup) (hc : c ∈ cs) (hp : p c = true)
    (hsame : ∀ x ∈ cs, x.key ≠ c.key → g x = f x) (hbump : g c = c.factor * f c) :
    ((cs.filter p).map g).prod = c.factor * ((cs.filter p).map f).prod := by
  induction cs with
  | nil => simp at hc
  | cons x rest ih =>
    rw [List.map_cons, List.nodup_cons] at hnd
    obtain ⟨hx, hrest⟩ := hnd
    by_cases hxc : x = c
    · subst hxc
      have hrest_same : ∀ y ∈ rest, g y = f y := by
        intro y hy
        apply hsame y (List.mem_cons_of_mem _ hy)
        intro hk
        exact hx (hk ▸ List.mem_map_of_mem CardDef.key hy)
      have hmap : (rest.filter p).map g = (rest.filter p).map f := by
        apply List.map_congr_left
        intro y hy
        exact hrest_same y (List.mem_of_mem_filter hy)
      simp [List.filter_cons, hp, hmap, hbump, mul_assoc]
    · have hcr : c ∈ rest := by
        rcases List.mem_cons.mp hc with h | h
        · exact absurd h.symm hxc
        · exact h
      have hxk : x.key ≠ c.key := by
        intro hk
        exact hx (hk ▸ List.mem_map_of_mem CardDef.key hcr)
      have hgx : g x = f x := hsame x (List.mem_cons_self _ _) hxk
      have ih' := ih hrest hcr (fun y hy => hsame y (List.mem_cons_of_mem _ hy))
      by_cases hpx : p x = true
      · simp [List.filter_cons, hpx, hgx, ih']
        ring
      · simp [List.filter_cons, hpx, ih']

theorem CARD_DEFS_keys_nodup : (CARD_DEFS.map CardDef.key).Nodup := by decide

theorem ITEM_DEFS_keys_nodup : (ITEM_DEFS.map ItemDef.key).Nodup := by decide

theorem fromEntries_items : Obj.fromEntries (ITEM_DEFS.map (fun d => (d.key, Num.int 0))) =
    zeroItems := by decide

theorem fromEntries_cards : Obj.fromEntries (CARD_DEFS.map (fun c => (c.key, Num.int 0))) =
    zeroCards := by decide

theorem housePoints_zeroItems (bonuses : BonusTable) (house : House)
    (h0 : ∀ d ∈ ITEM_DEFS, itemCount house d.key = 0) : housePoints bonuses house = 0 := by
  rw [housePoints_eq_sum]
  apply List.sum_eq_zero
  intro x hx
  obtain ⟨d, hd, rfl⟩ := List.mem_map.mp hx
  simp [itemContribution, h0 d hd]

theorem zeroItems_count : ∀ d ∈ ITEM_DEFS, orZero (Obj.get zeroItems d.key) = 0 := by decide

theorem resetHouse_eq (bonuses : BonusTable) (house : House) :
    resetHouse bonuses house =
      { name := house.name, color := house.color, items := zeroItems, cards := zeroCards,
        points := 0 } := by
  unfold resetHouse
  rw [fromEntries_items, fromEntries_cards]
  simp only [calculateHousePoints]
  rw [housePoints_zeroItems]
  intro d hd
  exact zeroItems_count d hd

theorem Obj.get_set {α : Type} (o : Obj α) (k k2 : String) (v : α) :
    Obj.get (Obj.set o k v) k2 = if k = k2 then some v else Obj.get o k2 := by
  by_cases h : k = k2
  · subst h
    simp [Obj.get_set_self]
  · simp [h, Obj.get_set_other _ _ _ _ h]

theorem Obj.keys_set_of_isSome {α : Type} (o : Obj α) (k : String) (v : α)
    (h : (Obj.get o k).isSome = true) : Obj.keys (Obj.set o k v) = Obj.keys o := by
  obtain ⟨w, hw⟩ := Option.isSome_iff_exists.mp h
  exact Obj.keys_set_of_get o k v w hw

theorem jsAdd_of_isNumber (x : Option Num) (d : Int) (h : isNumber x = true) :
    jsAdd x d = Num.int (orZero x + d) := by
  match x, h with
  | some (Num.int n), _ => rfl

theorem isSome_of_isNumber (x : Option Num) (h : isNumber x = true) : x.isSome = true := by
  match x, h with
  | some (Num.int n), _ => rfl

/-- A Save listener that finds the modal closed (house mode, no current house) returns at
line 284 and changes nothing. -/
theorem btnSaveHandler_closed (inp : Inputs) (app : App) (hm : app.modalMode = "house")
    (hi : app.currentHouseIndex = none) : btnSaveHandler inp app = Except.ok app := by
  simp [btnSaveHandler, hm, hi]

theorem btnSaveClick_closed (listeners : List Inputs) (app : App)
    (hm : app.modalMode = "house") (hi : app.currentHouseIndex = none) :
    btnSaveClick listeners app = app := by
  induction listeners with
  | nil => rfl
  | cons inp rest ih =>
    unfold btnSaveClick at ih ⊢
    rw [List.foldl_cons, btnSaveHandler_closed inp app hm hi]
    exact ih

/-- When the first listener of a click completes and closes the modal, the remaining
listeners find it closed: the click has the effect of the first listener alone. -/
theorem btnSaveClick_first (inp : Inputs) (rest : List Inputs) (app a : App)
    (h : btnSaveHandler inp app = Except.ok (closeHouseModal a)) :
    btnSaveClick (inp :: rest) app = closeHouseModal a := by
  have := btnSaveClick_closed rest (closeHouseModal a) rfl rfl
  unfold btnSaveClick at this ⊢
  rw [List.foldl_cons, h]
  exact this

/-- A Save click that finds the colour modal open for a non-empty colour: the first
listener adds the deltas to the houses of that colour and closes the modal. -/
theorem btnSaveClick_color (C : String) (inp : Inputs) (rest : List Inputs) (app : App)
    (hm : app.modalMode = "color") (hcur : app.currentColor = some C) (hC : C ≠ "") :
    btnSaveClick (inp :: rest) app =
      closeHouseModal
        { app with
          houses := app.houses.map (fun house =>
            if house.color ≠ C then house
            else addToHouse app.COLOR_BONUSES inp house) } := by
  apply btnSaveClick_first
  have hne : ¬ ("color" : String) = "house" := by decide
  simp [btnSaveHandler, hm, hcur, hC, hne]

theorem saveColorDelta_eq (color : String) (inp : Inputs) (rest : List Inputs) (app : App)
    (hC : color ≠ "") :
    saveColorDelta color (inp :: rest) app =
      closeHouseModal
        { openColorModal color app with
          houses := app.houses.map (fun house =>
            if house.color ≠ color then house
            else addToHouse (ensureColorBonuses app.COLOR_BONUSES color) inp house) } := by
  unfold saveColorDelta
  rw [btnSaveClick_color color inp rest (openColorModal color app) rfl rfl hC]
  simp [openColorModal, renderColorBonuses, hC]

theorem addToHouse_frame (bonuses : BonusTable) (inp : Inputs) (house : House) :
    (addToHouse bonuses inp house).name = house.name ∧
    (addToHouse bonuses inp house).color = house.color ∧
    (addToHouse bonuses inp house).cards = house.cards ∧
    (addToHouse bonuses inp house).points =
      housePoints bonuses (addToHouse bonuses inp house) :=
  ⟨rfl, rfl, rfl, rfl⟩

theorem addToHouse_items (bonuses : BonusTable) (inp : Inputs) (house : House)
    (hnum : itemsNumeric house = true) :
    itemCount (addToHouse bonuses inp house) "redGift" =
      itemCount house "redGift" + toNonNegativeInt inp.redGift ∧
    itemCount (addToHouse bonuses inp house) "blueGift" =
      itemCount house "blueGift" + toNonNegativeInt inp.blueGift ∧
    itemCount (addToHouse bonuses inp house) "redOrn" =
      itemCount house "redOrn" + toNonNegativeInt inp.redOrn ∧
    itemCount (addToHouse bonuses inp house) "blueOrn" =
      itemCount house "blueOrn" + toNonNegativeInt inp.blueOrn ∧
    Obj.keys (addToHouse bonuses inp house).items = Obj.keys house.items ∧
    itemsNumeric (addToHouse bonuses inp house) = true := by
  simp only [itemsNumeric, ITEM_DEFS, List.all_cons, List.all_nil, Bool.and_true,
    Bool.and_eq_true, item_redGift, item_blueGift, item_redOrn, item_blueOrn] at hnum
  obtain ⟨h1, h2, h3, h4⟩ := hnum
  have n12 : ("redGift" : String) ≠ "blueGift" := by decide
  have n13 : ("redGift" : String) ≠ "redOrn" := by decide
  have n14 : ("redGift" : String) ≠ "blueOrn" := by decide
  have n23 : ("blueGift" : String) ≠ "redOrn" := by decide
  have n24 : ("blueGift" : String) ≠ "blueOrn" := by decide
  have n34 : ("redOrn" : String) ≠ "blueOrn" := by decide
  simp only [itemCount, addToHouse, calculateHousePoints, itemsNumeric, ITEM_DEFS,
    List.all_cons, List.all_nil, Bool.and_true, Bool.and_eq_true, item_redGift,
    item_blueGift, item_redOrn, item_blueOrn, Obj.get_set, n12, n13, n14, n23, n24, n34,
    n12.symm, n13.symm, n14.symm, n23.symm, n24.symm, n34.symm, if_true, if_false,
    jsAdd_of_isNumber _ _ h1, jsAdd_of_isNumber _ _ h2, jsAdd_of_isNumber _ _ h3,
    jsAdd_of_isNumber _ _ h4, orZero, isNumber, true_and, and_true]
  rw [Obj.keys_set_of_isSome, Obj.keys_set_of_isSome, Obj.keys_set_of_isSome,
    Obj.keys_set_of_isSome]
  · exact isSome_of_isNumber _ h1
  · simp only [Obj.get_set, n12, if_false]; exact isSome_of_isNumber _ h2
  · simp only [Obj.get_set, n13, n23, if_false]; exact isSome_of_isNumber _ h3
  · simp only [Obj.get_set, n14, n24, n34, if_false]; exact isSome_of_isNumber _ h4

theorem ensureColorBonuses_of_get (bonuses : BonusTable) (color : String) (row : Obj Num)
    (h : Obj.get bonuses color = some row) : ensureColorBonuses bonuses color = bonuses := by
  simp [ensureColorBonuses, h]

theorem toggleColorBonus_table (color itemKey : String) (app : App) (hc : color ≠ "")
    (hk : itemKey ≠ "") :
    (toggleColorBonus color itemKey app).COLOR_BONUSES =
      Obj.set (ensureColorBonuses app.COLOR_BONUSES color) color
        (Obj.set ((Obj.get (ensureColorBonuses app.COLOR_BONUSES color) color).getD []) itemKey
          (flipped (Obj.get
            ((Obj.get (ensureColorBonuses app.COLOR_BONUSES color) color).getD []) itemKey))) := by
  simp [toggleColorBonus, hc, hk, flipped]

theorem toggleColorBonus_houses (color itemKey : String) (app : App) (hc : color ≠ "")
    (hk : itemKey ≠ "") :
    (toggleColorBonus color itemKey app).houses =
      app.houses.map (fun house =>
        if house.color = color then
          { house with
            points := housePoints (toggleColorBonus color itemKey app).COLOR_BONUSES house }
        else house) := by
  simp [toggleColorBonus, hc, hk, calculateHousePoints]

theorem toggleColorBonus_table_of_get (color itemKey : String) (app : App) (hc : color ≠ "")
    (hk : itemKey ≠ "") (row : Obj Num) (hrow : Obj.get app.COLOR_BONUSES color = some row) :
    (toggleColorBonus color itemKey app).COLOR_BONUSES =
      Obj.set app.COLOR_BONUSES color
        (Obj.set row itemKey (flipped (Obj.get row itemKey))) := by
  rw [toggleColorBonus_table color itemKey app hc hk,
    ensureColorBonuses_of_get _ _ row hrow, hrow]
  rfl

theorem bonusAt_eq_some (bonuses : BonusTable) (color itemKey : String) (x : Num)
    (h : bonusAt bonuses color itemKey = some x) :
    ∃ row, Obj.get bonuses color = some row ∧ Obj.get row itemKey = some x := by
  unfold bonusAt at h
  cases hr : Obj.get bonuses color with
  | none => simp [hr] at h
  | some row => exact ⟨row, rfl, by simpa [hr] using h⟩

/-- After a toggle the stored bonus of the pair is the flipped value, every other pair is
as before. -/
theorem bonusAt_toggle (color itemKey : String) (app : App) (hc : color ≠ "")
    (hk : itemKey ≠ "") (row : Obj Num) (hrow : Obj.get app.COLOR_BONUSES color = some row)
    (c k : String) :
    bonusAt (toggleColorBonus color itemKey app).COLOR_BONUSES c k =
      if c = color ∧ k = itemKey then some (flipped (Obj.get row itemKey))
      else bonusAt app.COLOR_BONUSES c k := by
  rw [toggleColorBonus_table_of_get color itemKey app hc hk row hrow]
  unfold bonusAt
  rw [Obj.get_set]
  by_cases h1 : color = c
  · subst h1
    by_cases h2 : itemKey = k
    · subst h2
      simp [Obj.get_set_self]
    · have h2' : ¬ k = itemKey := fun e => h2 e.symm
      simp [h2', hrow, Obj.get_set_other _ _ _ _ h2]
  · have h1' : ¬ c = color := fun e => h1 e.symm
    simp [h1, h1']

theorem colorBonus_eq_bonusAt (bonuses : BonusTable) (color itemKey : String) :
    colorBonus bonuses color itemKey = orZero (bonusAt bonuses color itemKey) := by
  unfold colorBonus bonusAt
  cases Obj.get bonuses color with
  | none => rfl
  | some row => rfl

theorem CARD_DEFS_factor_pos : ∀ c ∈ CARD_DEFS, 0 < c.factor := by
  intro c hc
  simp only [CARD_DEFS, List.mem_cons, List.mem_singleton, List.not_mem_nil, or_false] at hc
  rcases hc with rfl | rfl | rfl <;> decide

/-- Every card factor is positive, so the multiplier of an item is positive. -/
theorem itemMultiplier_pos (house : House) (d : ItemDef) : 0 < itemMultiplier house d := by
  rw [itemMultiplier_eq_spec]
  unfold specMultiplier
  apply List.prod_pos
  intro a ha
  obtain ⟨c, hc, rfl⟩ := List.mem_map.mp ha
  exact pow_pos (CARD_DEFS_factor_pos c (List.mem_of_mem_filter hc)) _

/-- A sum over a list with distinct keys in which exactly one term is shifted. -/
theorem sum_one_term_shift (f g : ItemDef → Int) (d : ItemDef) (delta : Int)
    (ds : List ItemDef) (hnd : (ds.map ItemDef.key).Nodup) (hd : d ∈ ds)
    (hsame : ∀ x ∈ ds, x.key ≠ d.key → g x = f x) (hshift : g d = f d + delta) :
    (ds.map g).sum = (ds.map f).sum + delta := by
  induction ds with
  | nil => simp at hd
  | cons x rest ih =>
    rw [List.map_cons, List.nodup_cons] at hnd
    obtain ⟨hx, hrest⟩ := hnd
    by_cases hxd : x = d
    · subst hxd
      have hmap : rest.map g = rest.map f := by
        apply List.map_congr_left
        intro y hy
        apply hsame y (List.mem_cons_of_mem _ hy)
        intro hk
        exact hx (hk ▸ List.mem_map_of_mem ItemDef.key hy)
      simp only [List.map_cons, List.sum_cons, hmap, hshift]
      ring
    · have hdr : d ∈ rest := by
        rcases List.mem_cons.mp hd with h | h
        · exact absurd h.symm hxd
        · exact h
      have hxk : x.key ≠ d.key := by
        intro hk
        exact hx (hk ▸ List.mem_map_of_mem ItemDef.key hdr)
      have hgx : g x = f x := hsame x (List.mem_cons_self _ _) hxk
      have ih' := ih hrest hdr (fun y hy => hsame y (List.mem_cons_of_mem _ hy))
      simp only [List.map_cons, List.sum_cons, hgx, ih']
      ring

theorem ITEM_DEFS_key_ne_empty : ∀ d ∈ ITEM_DEFS, d.key ≠ "" := by decide

/-- The score of a house under the table left by a toggle of `(color, d.key)`: unchanged
for a house of another colour, shifted by `± count × itemMultiplier` for a house of that
colour. -/
theorem housePoints_toggle (color : String) (d : ItemDef) (app : App) (old : Num)
    (hc : color ≠ "") (hd : d ∈ ITEM_DEFS)
    (hold : bonusAt app.COLOR_BONUSES color d.key = some old) (house : House) :
    housePoints (toggleColorBonus color d.key app).COLOR_BONUSES house =
      if house.color = color then
        housePoints app.COLOR_BONUSES house +
          (orZero (some (flipped (some old))) - orZero (some old)) *
            (itemCount house d.key * itemMultiplier house d)
      else housePoints app.COLOR_BONUSES house := by
  obtain ⟨row, hrow, hval⟩ := bonusAt_eq_some _ _ _ _ hold
  have hb := bonusAt_toggle color d.key app hc (ITEM_DEFS_key_ne_empty d hd) row hrow
  rw [housePoints_eq_sum, housePoints_eq_sum]
  by_cases hcol : house.color = color
  · rw [if_pos hcol]
    apply sum_one_term_shift _ _ d _ ITEM_DEFS ITEM_DEFS_keys_nodup hd
    · intro x _ hx
      unfold itemContribution
      rw [baseValue_eq, baseValue_eq, colorBonus_eq_bonusAt, colorBonus_eq_bonusAt, hb]
      simp [hx]
    · unfold itemContribution
      rw [baseValue_eq, baseValue_eq, colorBonus_eq_bonusAt, colorBonus_eq_bonusAt, hb,
        hcol, hold, hval]
      simp only [and_self, if_true]
      ring
  · rw [if_neg hcol]
    congr 1
    apply List.map_congr_left
    intro x _
    unfold itemContribution
    rw [baseValue_eq, baseValue_eq, colorBonus_eq_bonusAt, colorBonus_eq_bonusAt, hb]
    simp [hcol]

theorem saveHouseEdit_eq (i : Nat) (inp : Inputs) (rest : List Inputs) (app : App)
    (house : House) (hi : app.houses[i]? = some house) :
    saveHouseEdit (Num.int i) (inp :: rest) app =
      closeHouseModal
        { openHouseModal (Num.int i) app with
          houses := app.houses.set i (overwriteHouse app.COLOR_BONUSES inp house) } := by
  unfold saveHouseEdit
  apply btnSaveClick_first
  have hat : houseAt app.houses (Num.int (i : Int)) = some house := by
    simp [houseAt, hi]
  simp only [btnSaveHandler, openHouseModal, if_true, hat, Int.toNat_ofNat]

theorem overwriteHouse_fields (bonuses : BonusTable) (inp : Inputs) (house : House) :
    (overwriteHouse bonuses inp house).name = house.name ∧
    (overwriteHouse bonuses inp house).color = house.color ∧
    Obj.get (overwriteHouse bonuses inp house).items "redGift" =
      some (Num.int (toNonNegativeInt inp.redGift)) ∧
    Obj.get (overwriteHouse bonuses inp house).items "blueGift" =
      some (Num.int (toNonNegativeInt inp.blueGift)) ∧
    Obj.get (overwriteHouse bonuses inp house).items "redOrn" =
      some (Num.int (toNonNegativeInt inp.redOrn)) ∧
    Obj.get (overwriteHouse bonuses inp house).items "blueOrn" =
      some (Num.int (toNonNegativeInt inp.blueOrn)) ∧
    Obj.get (overwriteHouse bonuses inp house).cards "x3RedAll" =
      some (Num.int (toNonNegativeInt inp.x3RedAll)) ∧
    Obj.get (overwriteHouse bonuses inp house).cards "x2BlueAll" =
      some (Num.int (toNonNegativeInt inp.x2BlueAll)) ∧
    Obj.get (overwriteHouse bonuses inp house).cards "x4RedGift" =
      some (Num.int (toNonNegativeInt inp.x4RedGift)) ∧
    (overwriteHouse bonuses inp house).points =
      housePoints bonuses (overwriteHouse bonuses inp house) := by
  have n12 : ("redGift" : String) ≠ "blueGift" := by decide
  have n13 : ("redGift" : String) ≠ "redOrn" := by decide
  have n14 : ("redGift" : String) ≠ "blueOrn" := by decide
  have n23 : ("blueGift" : String) ≠ "redOrn" := by decide
  have n24 : ("blueGift" : String) ≠ "blueOrn" := by decide
  have n34 : ("redOrn" : String) ≠ "blueOrn" := by decide
  have c12 : ("x3RedAll" : String) ≠ "x2BlueAll" := by decide
  have c13 : ("x3RedAll" : String) ≠ "x4RedGift" := by decide
  have c23 : ("x2BlueAll" : String) ≠ "x4RedGift" := by decide
  refine ⟨rfl, rfl, ?_, ?_, ?_, ?_, ?_, ?_, ?_, rfl⟩ <;>
    simp only [overwriteHouse, calculateHousePoints, Obj.get_set, n12, n13, n14, n23, n24,
      n34, c12, c13, c23, n12.symm, n13.symm, n14.symm, n23.symm, n24.symm, n34.symm,
      c12.symm, c13.symm, c23.symm, if_true, if_false]

/-! ## Lemmas on `parseInt` -/

theorem digitChar_spec (m : Nat) (hm : m < 10) :
    isDecDigit (Nat.digitChar m) = true ∧ (Nat.digitChar m).toNat - 48 = m := by
  interval_cases m <;> decide

theorem digitsValue_append_singleton (pre : List Char) (c : Char) :
    digitsValue (pre ++ [c]) = digitsValue pre * 10 + (c.toNat - 48) := by
  simp [digitsValue, List.foldl_append]

/-- The digits `Nat.toDigitsCore 10` puts in front of its accumulator: a non-empty run of
decimal digits whose value is the number printed. -/
theorem toDigitsCore_spec (fuel n : Nat) (hn : n < fuel) (ds : List Char) :
    ∃ pre : List Char, Nat.toDigitsCore 10 fuel n ds = pre ++ ds ∧ pre ≠ [] ∧
      (∀ c ∈ pre, isDecDigit c = true) ∧ digitsValue pre = n := by
  induction fuel generalizing n ds with
  | zero => omega
  | succ fuel ih =>
    obtain ⟨hdig, hval⟩ := digitChar_spec (n % 10) (Nat.mod_lt _ (by decide))
    by_cases h0 : n / 10 = 0
    · refine ⟨[Nat.digitChar (n % 10)], ?_, by simp, ?_, ?_⟩
      · simp [Nat.toDigitsCore, h0]
      · intro c hc
        rw [List.mem_singleton] at hc
        rw [hc]; exact hdig
      · have : digitsValue [Nat.digitChar (n % 10)] = (Nat.digitChar (n % 10)).toNat - 48 := by
          simp [digitsValue]
        rw [this, hval]
        omega
    · have hlt : n / 10 < fuel := by omega
      obtain ⟨pre, hpre, _, hall, hv⟩ := ih (n / 10) hlt (Nat.digitChar (n % 10) :: ds)
      refine ⟨pre ++ [Nat.digitChar (n % 10)], ?_, by simp, ?_, ?_⟩
      · simp [Nat.toDigitsCore, h0, hpre]
      · intro c hc
        rcases List.mem_append.mp hc with h | h
        · exact hall c h
        · rw [List.mem_singleton] at h
          rw [h]; exact hdig
      · rw [digitsValue_append_singleton, hv, hval]
        omega

theorem toDigits_spec (n : Nat) :
    Nat.toDigits 10 n ≠ [] ∧ (∀ c ∈ Nat.toDigits 10 n, isDecDigit c = true) ∧
      digitsValue (Nat.toDigits 10 n) = n := by
  obtain ⟨pre, hpre, hne, hall, hv⟩ := toDigitsCore_spec (n + 1) n (Nat.lt_succ_self n) []
  rw [List.append_nil] at hpre
  unfold Nat.toDigits
  rw [hpre]
  exact ⟨hne, hall, hv⟩

theorem takeWhile_digits_append (pre tail : List Char)
    (hall : ∀ c ∈ pre, isDecDigit c = true)
    (htail : ∀ c, tail.head? = some c → isDecDigit c = false) :
    (pre ++ tail).takeWhile isDecDigit = pre := by
  induction pre with
  | nil =>
    cases tail with
    | nil => rfl
    | cons c t => simp [List.takeWhile, htail c rfl]
  | cons c rest ih =>
    have hc : isDecDigit c = true := hall c (List.mem_cons_self _ _)
    simp only [List.cons_append, List.takeWhile_cons, hc, if_true]
    rw [ih (fun x hx => hall x (List.mem_cons_of_mem _ hx))]

theorem digit_not_space_or_sign (c : Char) (hc : isDecDigit c = true) :
    isJsWhiteSpace c = false ∧ c ≠ '-' ∧ c ≠ '+' := by
  simp only [isDecDigit, Bool.and_eq_true, decide_eq_true_eq] at hc
  refine ⟨?_, ?_, ?_⟩
  · simp only [isJsWhiteSpace]
    simp only [Bool.or_eq_false_iff, Bool.and_eq_false_iff, decide_eq_false_iff_not]
    omega
  · rintro rfl
    revert hc
    decide
  · rintro rfl
    revert hc
    decide

/-- A text that starts with a run of decimal digits, followed by anything that is not a
digit, parses to the value of the run. -/
theorem parseIntChars_digits (pre tail : List Char) (hne : pre ≠ [])
    (hall : ∀ c ∈ pre, isDecDigit c = true)
    (htail : ∀ c, tail.head? = some c → isDecDigit c = false) :
    parseIntChars (pre ++ tail) = some (digitsValue pre : Int) := by
  cases pre with
  | nil => exact absurd rfl hne
  | cons c rest =>
    obtain ⟨hws, hminus, hplus⟩ := digit_not_space_or_sign c (hall c (List.mem_cons_self _ _))
    have htw := takeWhile_digits_append (c :: rest) tail hall htail
    simp only [List.cons_append] at htw
    simp [parseIntChars, List.dropWhile, hws, hminus, hplus, htw]

/-- A minus sign in front of such a text gives the negated value. -/
theorem parseIntChars_minus_digits (pre tail : List Char) (hne : pre ≠ [])
    (hall : ∀ c ∈ pre, isDecDigit c = true)
    (htail : ∀ c, tail.head? = some c → isDecDigit c = false) :
    parseIntChars ('-' :: (pre ++ tail)) = some (-(digitsValue pre : Int)) := by
  have htw := takeWhile_digits_append pre tail hall htail
  have hws : isJsWhiteSpace '-' = false := by decide
  simp [parseIntChars, List.dropWhile, hws, htw, hne]

/-- A text whose first character after the leading white space is neither a digit nor a
sign (or that has no such character) does not parse. -/
theorem parseIntChars_no_number (cs : List Char)
    (h : ∀ c, (cs.dropWhile isJsWhiteSpace).head? = some c →
      isDecDigit c = false ∧ c ≠ '-' ∧ c ≠ '+') :
    parseIntChars cs = none := by
  unfold parseIntChars
  cases hs : cs.dropWhile isJsWhiteSpace with
  | nil => simp
  | cons c t =>
    rw [hs] at h
    obtain ⟨hd, hm, hp⟩ := h c rfl
    simp [hm, hp, List.takeWhile, hd]

theorem toNonNegativeInt_nonneg (value : JsVal) : 0 ≤ toNonNegativeInt value := by
  unfold toNonNegativeInt
  cases parseInt value with
  | none => exact le_refl 0
  | some n =>
    by_cases h : n < 0
    · simp [h]
    · simp only [h, if_false]
      omega

theorem toString_nat_data (n : Nat) : (toString n).data = Nat.toDigits 10 n := rfl

theorem toNonNegativeInt_str_digits (n : Nat) (tail : String)
    (htail : ∀ c, tail.data.head? = some c → isDecDigit c = false) :
    toNonNegativeInt (JsVal.str (toString n ++ tail)) = n := by
  obtain ⟨hne, hall, hv⟩ := toDigits_spec n
  have hp : parseInt (JsVal.str (toString n ++ tail)) = some (n : Int) := by
    simp only [parseInt, jsToString, String.data_append, toString_nat_data]
    rw [parseIntChars_digits _ _ hne hall htail, hv]
  simp [toNonNegativeInt, hp]

theorem toNonNegativeInt_str_minus (n : Nat) (tail : String)
    (htail : ∀ c, tail.data.head? = some c → isDecDigit c = false) :
    toNonNegativeInt (JsVal.str ("-" ++ (toString n ++ tail))) = 0 := by
  obtain ⟨hne, hall, hv⟩ := toDigits_spec n
  have hp : parseInt (JsVal.str ("-" ++ (toString n ++ tail))) = some (-(n : Int)) := by
    simp only [parseInt, jsToString, String.data_append, toString_nat_data]
    rw [List.singleton_append, parseIntChars_minus_digits _ _ hne hall htail, hv]
  simp only [toNonNegativeInt, hp]
  by_cases h : -(n : Int) < 0
  · simp [h]
  · simp only [h, if_false]
    omega

theorem overwriteHouse_isCount (bonuses : BonusTable) (inp : Inputs) (house : House) :
    (∀ d ∈ ITEM_DEFS, isCount (Obj.get (overwriteHouse bonuses inp house).items d.key) = true) ∧
    (∀ c ∈ CARD_DEFS,
      isCount (Obj.get (overwriteHouse bonuses inp house).cards c.key) = true) := by
  obtain ⟨_, _, a3, a4, a5, a6, a7, a8, a9, _⟩ := overwriteHouse_fields bonuses inp house
  constructor
  · intro d hd
    simp only [ITEM_DEFS, List.mem_cons, List.mem_singleton, List.not_mem_nil, or_false] at hd
    rcases hd with rfl | rfl | rfl | rfl
    · simp only [item_redGift, a3, isCount, toNonNegativeInt_nonneg, decide_True]
    · simp only [item_blueGift, a4, isCount, toNonNegativeInt_nonneg, decide_True]
    · simp only [item_redOrn, a5, isCount, toNonNegativeInt_nonneg, decide_True]
    · simp only [item_blueOrn, a6, isCount, toNonNegativeInt_nonneg, decide_True]
  · intro c hc
    simp only [CARD_DEFS, List.mem_cons, List.mem_singleton, List.not_mem_nil, or_false] at hc
    rcases hc with rfl | rfl | rfl
    · simp only [card_x3RedAll, a7, isCount, toNonNegativeInt_nonneg, decide_True]
    · simp only [card_x2BlueAll, a8, isCount, toNonNegativeInt_nonneg, decide_True]
    · simp only [card_x4RedGift, a9, isCount, toNonNegativeInt_nonneg, decide_True]

theorem isNumber_of_isCount (x : Option Num) (h : isCount x = true) : isNumber x = true := by
  match x, h with
  | some (Num.int n), _ => rfl

theorem orZero_nonneg_of_isCount (x : Option Num) (h : isCount x = true) : 0 ≤ orZero x := by
  match x, h with
  | some (Num.int n), h => simpa [isCount] using h

theorem isCount_of_number_nonneg (x : Option Num) (h : isNumber x = true)
    (h0 : 0 ≤ orZero x) : isCount x = true := by
  match x, h with
  | some (Num.int n), _ => simpa [isCount, orZero] using h0

theorem addToHouse_isCount (bonuses : BonusTable) (inp : Inputs) (house : House)
    (hcnt : ∀ d ∈ ITEM_DEFS, isCount (Obj.get house.items d.key) = true) :
    ∀ d ∈ ITEM_DEFS, isCount (Obj.get (addToHouse bonuses inp house).items d.key) = true := by
  have hnum : itemsNumeric house = true := by
    simp only [itemsNumeric, List.all_eq_true]
    intro d hd
    exact isNumber_of_isCount _ (hcnt d hd)
  obtain ⟨a1, a2, a3, a4, _, a6⟩ := addToHouse_items bonuses inp house hnum
  simp only [itemsNumeric, List.all_eq_true] at a6
  have b1 := orZero_nonneg_of_isCount _ (hcnt item_redGift (by simp [ITEM_DEFS]))
  have b2 := orZero_nonneg_of_isCount _ (hcnt item_blueGift (by simp [ITEM_DEFS]))
  have b3 := orZero_nonneg_of_isCount _ (hcnt item_redOrn (by simp [ITEM_DEFS]))
  have b4 := orZero_nonneg_of_isCount _ (hcnt item_blueOrn (by simp [ITEM_DEFS]))
  have c1 := toNonNegativeInt_nonneg inp.redGift
  have c2 := toNonNegativeInt_nonneg inp.blueGift
  have c3 := toNonNegativeInt_nonneg inp.redOrn
  have c4 := toNonNegativeInt_nonneg inp.blueOrn
  intro d hd
  apply isCount_of_number_nonneg _ (a6 d hd)
  simp only [ITEM_DEFS, List.mem_cons, List.mem_singleton, List.not_mem_nil, or_false] at hd
  simp only [itemCount] at a1 a2 a3 a4
  simp only [item_redGift, item_blueGift, item_redOrn, item_blueOrn] at b1 b2 b3 b4
  rcases hd with rfl | rfl | rfl | rfl
  · simp only [item_redGift]; omega
  · simp only [item_blueGift]; omega
  · simp only [item_redOrn]; omega
  · simp only [item_blueOrn]; omega

theorem Obj.set_of_get_none {α : Type} (o : Obj α) (k : String) (v : α)
    (h : Obj.get o k = none) : Obj.set o k v = o ++ [(k, v)] := by
  induction o with
  | nil => rfl
  | cons p rest ih =>
    obtain ⟨k', v'⟩ := p
    by_cases hk : k' = k
    · simp [Obj.get, hk] at h
    · simp only [Obj.get, hk, if_false] at h
      simp [Obj.set, hk, ih h]

/-- A Save listener that finds house mode with an index that names no house throws at
line 287, before any assignment. -/
theorem btnSaveHandler_no_house (inp : Inputs) (app : App) (i : Num)
    (hm : app.modalMode = "house") (hi : app.currentHouseIndex = some i)
    (hat : houseAt app.houses i = none) :
    btnSaveHandler inp app = Except.error JsError.typeError := by
  simp only [btnSaveHandler, hm, if_true, hi, hat]

theorem btnSaveClick_no_house (listeners : List Inputs) (app : App) (i : Num)
    (hm : app.modalMode = "house") (hi : app.currentHouseIndex = some i)
    (hat : houseAt app.houses i = none) : btnSaveClick listeners app = app := by
  induction listeners with
  | nil => rfl
  | cons inp rest ih =>
    unfold btnSaveClick at ih ⊢
    rw [List.foldl_cons, btnSaveHandler_no_house inp app i hm hi hat]
    exact ih

/-! ## Lemmas on the reachable states -/

/-- What a Save listener that returns normally has done: `COLOR_BONUSES` is untouched, and
the houses are as before, or one existing house was overwritten, or the houses of one
colour received the deltas. -/
theorem btnSaveHandler_ok (inp : Inputs) (app a' : App)
    (h : btnSaveHandler inp app = Except.ok a') :
    a'.COLOR_BONUSES = app.COLOR_BONUSES ∧
    (a'.houses = app.houses ∨
      (∃ (i : Nat) (house : House), app.houses[i]? = some house ∧
        a'.houses = app.houses.set i (overwriteHouse app.COLOR_BONUSES inp house)) ∨
      (∃ C : String, a'.houses = app.houses.map (fun house =>
        if house.color ≠ C then house else addToHouse app.COLOR_BONUSES inp house))) := by
  unfold btnSaveHandler at h
  split at h
  · split at h
    · cases h; exact ⟨rfl, Or.inl rfl⟩
    · rename_i i _
      split at h
      · rename_i house n _ hat
        cases h
        refine ⟨rfl, Or.inr (Or.inl ⟨n.toNat, house, ?_, rfl⟩)⟩
        simp only [houseAt] at hat
        split at hat
        · simpa using hat
        · cases hat
      · cases h
  · split at h
    · split at h
      · cases h; exact ⟨rfl, Or.inl rfl⟩
      · rename_i currentColor _
        split at h
        · cases h; exact ⟨rfl, Or.inl rfl⟩
        · cases h
          exact ⟨rfl, Or.inr (Or.inr ⟨currentColor, rfl⟩)⟩
    · cases h; exact ⟨rfl, Or.inl rfl⟩

theorem btnScoreRoundHandler_houses (app : App) :
    (btnScoreRoundHandler app).2.houses =
      app.houses.map (fun h =>
        { name := h.name, color := h.color, items := zeroItems, cards := zeroCards,
          points := 0 }) := by
  simp only [btnScoreRoundHandler, calculateTotalPoints_eq, List.map_map]
  apply List.map_congr_left
  intro h _
  simp only [Function.comp, resetHouse_eq, calculateHousePoints]

theorem toggleColorBonus_empty (color itemKey : String) (app : App)
    (h : color = "" ∨ itemKey = "") : toggleColorBonus color itemKey app = app := by
  simp [toggleColorBonus, h]

/-- A property that every normally returning Save listener keeps is kept by a click. -/
theorem btnSaveClick_preserves (P : App → Prop)
    (hstep : ∀ (inp : Inputs) (b b' : App), P b → btnSaveHandler inp b = Except.ok b' → P b')
    (listeners : List Inputs) (a : App) (ha : P a) : P (btnSaveClick listeners a) := by
  induction listeners generalizing a with
  | nil => exact ha
  | cons inp rest ihl =>
    unfold btnSaveClick
    rw [List.foldl_cons]
    cases hres : btnSaveHandler inp a with
    | error e => exact ihl a ha
    | ok a' => exact ihl a' (hstep inp a a' ha hres)

/-- Induction over the reachable states for a property that reads only the houses and
`COLOR_BONUSES`. -/
theorem reachable_induction_on_data (P : List House → BonusTable → Prop)
    (h0 : P startup.houses startup.COLOR_BONUSES)
    (hedit : ∀ (hs : List House) (t : BonusTable) (i : Nat) (house : House) (inp : Inputs),
      P hs t → hs[i]? = some house → P (hs.set i (overwriteHouse t inp house)) t)
    (hdelta : ∀ (hs : List House) (t : BonusTable) (C : String) (inp : Inputs),
      P hs t →
        P (hs.map (fun house => if house.color ≠ C then house else addToHouse t inp house)) t)
    (hensure : ∀ (hs : List House) (t : BonusTable) (color : String), P hs t →
      P hs (ensureColorBonuses t color))
    (htoggle : ∀ (a : App) (color itemKey : String), color ≠ "" → itemKey ≠ "" →
      P a.houses a.COLOR_BONUSES →
        P (toggleColorBonus color itemKey a).houses
          (toggleColorBonus color itemKey a).COLOR_BONUSES)
    (hscore : ∀ (hs : List House) (t : BonusTable), P hs t →
      P (hs.map (fun h =>
        { name := h.name, color := h.color, items := zeroItems, cards := zeroCards,
          points := 0 })) t)
    (a : App) (ha : Reachable a) : P a.houses a.COLOR_BONUSES := by
  induction ha with
  | startup => exact h0
  | openHouse index _ ih => exact ih
  | @openColor a color _ ih =>
    by_cases hc : color = ""
    · simpa [openColorModal, renderColorBonuses, hc] using ih
    · simpa [openColorModal, renderColorBonuses, hc] using hensure _ _ color ih
  | close _ ih => exact ih
  | @save a listeners _ _ _ ih =>
    have hstep : ∀ (inp : Inputs) (b b' : App), P b.houses b.COLOR_BONUSES →
        btnSaveHandler inp b = Except.ok b' → P b'.houses b'.COLOR_BONUSES := by
      intro inp b b' hb hok
      obtain ⟨ht, hh | ⟨i, house, hi, hh⟩ | ⟨C, hh⟩⟩ := btnSaveHandler_ok inp b b' hok
      · rw [ht, hh]; exact hb
      · rw [ht, hh]; exact hedit _ _ i house inp hb hi
      · rw [ht, hh]; exact hdelta _ _ C inp hb
    exact btnSaveClick_preserves (fun b => P b.houses b.COLOR_BONUSES) hstep listeners a ih
  | @toggle a color itemKey _ _ _ _ ih =>
    by_cases hc : color = ""
    · rw [toggleColorBonus_empty color itemKey a (Or.inl hc)]; exact ih
    · by_cases hk : itemKey = ""
      · rw [toggleColorBonus_empty color itemKey a (Or.inr hk)]; exact ih
      · exact htoggle a color itemKey hc hk ih
  | @scoreRound a _ ih =>
    rw [btnScoreRoundHandler_houses]
    exact hscore _ _ ih

/-- Names and colours of the houses never change. -/
theorem reachable_names_colors (a : App) (ha : Reachable a) :
    a.houses.map (fun h => (h.name, h.color)) =
      startup.houses.map (fun h => (h.name, h.color)) := by
  apply reachable_induction_on_data
    (fun hs _ => hs.map (fun h => (h.name, h.color)) =
      startup.houses.map (fun h => (h.name, h.color))) rfl _ _ (fun _ _ _ hP => hP) _ _ a ha
  · intro hs t i house inp hP hi
    simp only at hP ⊢
    rw [← hP]
    apply List.ext_getElem?
    intro j
    simp only [List.getElem?_map]
    by_cases hj : i = j
    · subst hj
      have hlt : i < hs.length := (List.getElem?_eq_some_iff.mp hi).1
      rw [List.getElem?_set_self hlt, hi]
      rfl
    · rw [List.getElem?_set_ne hj]
  · intro hs t C inp hP
    simp only at hP ⊢
    rw [← hP, List.map_map]
    apply List.map_congr_left
    intro h _
    by_cases hc : h.color = C
    · simp [hc, (addToHouse_frame t inp h).1, (addToHouse_frame t inp h).2.1]
    · simp [hc]
  · intro a color itemKey hc hk hP
    simp only at hP ⊢
    rw [← hP, toggleColorBonus_houses color itemKey a hc hk, List.map_map]
    apply List.map_congr_left
    intro h _
    by_cases hcol : h.color = color
    · simp [hcol]
    · simp [hcol]
  · intro hs t hP
    simp only at hP ⊢
    rw [← hP, List.map_map]
    rfl

theorem reachable_color_mem (a : App) (ha : Reachable a) :
    ∀ h ∈ a.houses, h.color ∈ COLORS := by
  intro h hh
  have hmem : (h.name, h.color) ∈ a.houses.map (fun h => (h.name, h.color)) :=
    List.mem_map_of_mem _ hh
  rw [reachable_names_colors a ha] at hmem
  revert hmem
  generalize h.name = n
  generalize h.color = c
  intro hmem
  have : ∀ p ∈ startup.houses.map (fun h => (h.name, h.color)), p.2 ∈ COLORS := by decide
  exact this (n, c) hmem

theorem ensureColorBonuses_of_none (bonuses : BonusTable) (color : String)
    (h : Obj.get bonuses color = none) (hni : color ∉ objectPrototypeNames) :
    ensureColorBonuses bonuses color = bonuses ++ [(color, zeroItems)] := by
  simp only [ensureColorBonuses, h, hni, if_false]
  exact Obj.set_of_get_none bonuses color _ h

/-- What `ensureColorBonuses` holds for another colour is what the table held. -/
theorem ensureColorBonuses_get_other (bonuses : BonusTable) (color c : String)
    (hne : c ≠ color) :
    Obj.get (ensureColorBonuses bonuses color) c = Obj.get bonuses c := by
  unfold ensureColorBonuses
  cases hrow : Obj.get bonuses color with
  | some row => rfl
  | none =>
    simp only []
    split
    · rfl
    · rw [Obj.get_set_other _ _ _ _ (Ne.symm hne)]

theorem orZero_get_zeroItems (k : String) : orZero (Obj.get zeroItems k) = 0 := by
  simp only [zeroItems, Obj.get]
  repeat' split
  all_goals rfl

/-- The row `ensureColorBonuses` adds holds zeros, so it changes no bonus that the scoring
reads. -/
theorem colorBonus_ensure (bonuses : BonusTable) (color c k : String) :
    colorBonus (ensureColorBonuses bonuses color) c k = colorBonus bonuses c k := by
  by_cases hcc : c = color
  · subst hcc
    unfold ensureColorBonuses
    cases hrow : Obj.get bonuses c with
    | some row => rfl
    | none =>
      simp only []
      split
      · rfl
      · unfold colorBonus
        rw [Obj.get_set_self, hrow]
        exact orZero_get_zeroItems k
  · unfold colorBonus
    rw [ensureColorBonuses_get_other bonuses color c hcc]

theorem housePoints_ensure (bonuses : BonusTable) (color : String) (house : House) :
    housePoints (ensureColorBonuses bonuses color) house = housePoints bonuses house := by
  rw [housePoints_eq_sum, housePoints_eq_sum]
  congr 1
  apply List.map_congr_left
  intro d _
  unfold itemContribution
  rw [baseValue_eq, baseValue_eq, colorBonus_ensure]

theorem flipped_zeroItems (itemKey : String) :
    flipped (Obj.get zeroItems itemKey) = Num.int 1 := by
  simp only [zeroItems, Obj.get, flipped]
  repeat' split
  all_goals first | rfl | simp_all [truthy]

/-- The table left by a toggle for a colour that has no row: the old table with one new
row, all item keys at 0 except the toggled key at 1. -/
theorem toggleColorBonus_table_of_none (color itemKey : String) (app : App) (hc : color ≠ "")
    (hk : itemKey ≠ "") (hrow : Obj.get app.COLOR_BONUSES color = none)
    (hni : color ∉ objectPrototypeNames) :
    (toggleColorBonus color itemKey app).COLOR_BONUSES =
      app.COLOR_BONUSES ++ [(color, Obj.set zeroItems itemKey (Num.int 1))] := by
  rw [toggleColorBonus_table color itemKey app hc hk,
    ensureColorBonuses_of_none _ _ hrow hni]
  have hget : Obj.get (app.COLOR_BONUSES ++ [(color, zeroItems)]) color = some zeroItems := by
    rw [← Obj.set_of_get_none _ _ _ hrow, Obj.get_set_self]
  rw [hget, Option.getD_some, flipped_zeroItems, ← Obj.set_of_get_none _ _ _ hrow,
    Obj.set_set, Obj.set_of_get_none _ _ _ hrow]

/-- A toggle never changes what the table holds for another colour. -/
theorem toggleColorBonus_get_other (color itemKey : String) (app : App) (c : String)
    (hne : c ≠ color) :
    Obj.get (toggleColorBonus color itemKey app).COLOR_BONUSES c =
      Obj.get app.COLOR_BONUSES c := by
  by_cases hc : color = ""
  · rw [toggleColorBonus_empty color itemKey app (Or.inl hc)]
  · by_cases hk : itemKey = ""
    · rw [toggleColorBonus_empty color itemKey app (Or.inr hk)]
    · rw [toggleColorBonus_table color itemKey app hc hk,
        Obj.get_set_other _ _ _ _ (Ne.symm hne),
        ensureColorBonuses_get_other _ _ _ hne]

/-- A toggle for a colour that no house has leaves the houses as they are. -/
theorem toggleColorBonus_houses_of_no_house (color itemKey : String) (app : App)
    (hno : ∀ h ∈ app.houses, h.color ≠ color) :
    (toggleColorBonus color itemKey app).houses = app.houses := by
  by_cases hc : color = ""
  · rw [toggleColorBonus_empty color itemKey app (Or.inl hc)]
  · by_cases hk : itemKey = ""
    · rw [toggleColorBonus_empty color itemKey app (Or.inr hk)]
    · rw [toggleColorBonus_houses color itemKey app hc hk]
      conv_rhs => rw [← List.map_id app.houses]
      apply List.map_congr_left
      intro h hh
      simp [hno h hh]

theorem Obj.get_isSome_of_mem_keys {α : Type} (o : Obj α) (k : String)
    (h : k ∈ Obj.keys o) : (Obj.get o k).isSome = true := by
  induction o with
  | nil => simp [Obj.keys] at h
  | cons p rest ih =>
    obtain ⟨k', v'⟩ := p
    by_cases hk : k' = k
    · simp [Obj.get, hk]
    · have hmem : k ∈ Obj.keys rest := by
        simp only [Obj.keys, List.map_cons, List.mem_cons] at h
        rcases h with h | h
        · exact absurd h.symm hk
        · exact h
      simp [Obj.get, hk, ih hmem]

theorem Obj.keys_set_of_mem {α : Type} (o : Obj α) (k : String) (v : α)
    (h : k ∈ Obj.keys o) : Obj.keys (Obj.set o k v) = Obj.keys o :=
  Obj.keys_set_of_isSome o k v (Obj.get_isSome_of_mem_keys o k h)

/-- Overwriting a house whose objects hold exactly the defined keys keeps the keys. -/
theorem overwriteHouse_keys (bonuses : BonusTable) (inp : Inputs) (house : House)
    (hi : Obj.keys house.items = ITEM_DEFS.map ItemDef.key)
    (hc : Obj.keys house.cards = CARD_DEFS.map CardDef.key) :
    Obj.keys (overwriteHouse bonuses inp house).items = ITEM_DEFS.map ItemDef.key ∧
    Obj.keys (overwriteHouse bonuses inp house).cards = CARD_DEFS.map CardDef.key := by
  have i1 : "redGift" ∈ Obj.keys house.items := by rw [hi]; decide
  have i2 : "blueGift" ∈ Obj.keys house.items := by rw [hi]; decide
  have i3 : "redOrn" ∈ Obj.keys house.items := by rw [hi]; decide
  have i4 : "blueOrn" ∈ Obj.keys house.items := by rw [hi]; decide
  have c1 : "x3RedAll" ∈ Obj.keys house.cards := by rw [hc]; decide
  have c2 : "x2BlueAll" ∈ Obj.keys house.cards := by rw [hc]; decide
  have c3 : "x4RedGift" ∈ Obj.keys house.cards := by rw [hc]; decide
  simp only [overwriteHouse, calculateHousePoints]
  constructor
  · have e1 := Obj.keys_set_of_mem house.items "redGift"
      (Num.int (toNonNegativeInt inp.redGift)) i1
    have e2 := Obj.keys_set_of_mem _ "blueGift" (Num.int (toNonNegativeInt inp.blueGift))
      (e1 ▸ i2)
    have e3 := Obj.keys_set_of_mem _ "redOrn" (Num.int (toNonNegativeInt inp.redOrn))
      ((e2.trans e1) ▸ i3)
    have e4 := Obj.keys_set_of_mem _ "blueOrn" (Num.int (toNonNegativeInt inp.blueOrn))
      ((e3.trans (e2.trans e1)) ▸ i4)
    rw [e4, e3, e2, e1, hi]
  · have e1 := Obj.keys_set_of_mem house.cards "x3RedAll"
      (Num.int (toNonNegativeInt inp.x3RedAll)) c1
    have e2 := Obj.keys_set_of_mem _ "x2BlueAll" (Num.int (toNonNegativeInt inp.x2BlueAll))
      (e1 ▸ c2)
    have e3 := Obj.keys_set_of_mem _ "x4RedGift" (Num.int (toNonNegativeInt inp.x4RedGift))
      ((e2.trans e1) ▸ c3)
    rw [e3, e2, e1, hc]

/-- Adding deltas to a house whose items hold exactly the defined keys keeps the keys. -/
theorem addToHouse_keys (bonuses : BonusTable) (inp : Inputs) (house : House)
    (hi : Obj.keys house.items = ITEM_DEFS.map ItemDef.key) :
    Obj.keys (addToHouse bonuses inp house).items = ITEM_DEFS.map ItemDef.key := by
  have i1 : "redGift" ∈ Obj.keys house.items := by rw [hi]; decide
  have i2 : "blueGift" ∈ Obj.keys house.items := by rw [hi]; decide
  have i3 : "redOrn" ∈ Obj.keys house.items := by rw [hi]; decide
  have i4 : "blueOrn" ∈ Obj.keys house.items := by rw [hi]; decide
  simp only [addToHouse, calculateHousePoints]
  have e1 := Obj.keys_set_of_mem house.items "redGift"
    (jsAdd (Obj.get house.items "redGift") (toNonNegativeInt inp.redGift)) i1
  generalize Obj.set house.items "redGift"
    (jsAdd (Obj.get house.items "redGift") (toNonNegativeInt inp.redGift)) = o1 at e1 ⊢
  have e2 := Obj.keys_set_of_mem o1 "blueGift"
    (jsAdd (Obj.get o1 "blueGift") (toNonNegativeInt inp.blueGift)) (e1 ▸ i2)
  generalize Obj.set o1 "blueGift"
    (jsAdd (Obj.get o1 "blueGift") (toNonNegativeInt inp.blueGift)) = o2 at e2 ⊢
  have e3 := Obj.keys_set_of_mem o2 "redOrn"
    (jsAdd (Obj.get o2 "redOrn") (toNonNegativeInt inp.redOrn)) ((e2.trans e1) ▸ i3)
  generalize Obj.set o2 "redOrn"
    (jsAdd (Obj.get o2 "redOrn") (toNonNegativeInt inp.redOrn)) = o3 at e3 ⊢
  have e4 := Obj.keys_set_of_mem o3 "blueOrn"
    (jsAdd (Obj.get o3 "blueOrn") (toNonNegativeInt inp.blueOrn))
    ((e3.trans (e2.trans e1)) ▸ i4)
  rw [e4, e3, e2, e1, hi]

/-- For a non-empty colour and key, the row of the toggled colour after the toggle is the
row `ensureColorBonuses` finds, with the toggled key rewritten. -/
theorem toggleColorBonus_get_self (color itemKey : String) (app : App) (hc : color ≠ "")
    (hk : itemKey ≠ "") :
    Obj.get (toggleColorBonus color itemKey app).COLOR_BONUSES color =
      some (Obj.set ((Obj.get (ensureColorBonuses app.COLOR_BONUSES color) color).getD [])
        itemKey
        (flipped (Obj.get
          ((Obj.get (ensureColorBonuses app.COLOR_BONUSES color) color).getD []) itemKey))) := by
  rw [toggleColorBonus_table color itemKey app hc hk, Obj.get_set_self]

theorem Obj.mem_set {α : Type} (o : Obj α) (k : String) (v : α) (p : String × α)
    (h : p ∈ Obj.set o k v) : p ∈ o ∨ p = (k, v) := by
  induction o with
  | nil =>
    simp only [Obj.set, List.mem_singleton] at h
    exact Or.inr h
  | cons e rest ih =>
    obtain ⟨k', v'⟩ := e
    by_cases hk : k' = k
    · simp only [Obj.set, hk, if_true, List.mem_cons] at h
      rcases h with h | h
      · exact Or.inr h
      · exact Or.inl (List.mem_cons_of_mem _ h)
    · simp only [Obj.set, hk, if_false, List.mem_cons] at h
      rcases h with h | h
      · exact Or.inl (h ▸ List.mem_cons_self _ _)
      · rcases ih h with h1 | h1
        · exact Or.inl (List.mem_cons_of_mem _ h1)
        · exact Or.inr h1

theorem Obj.mem_of_get {α : Type} (o : Obj α) (k : String) (v : α)
    (h : Obj.get o k = some v) : (k, v) ∈ o := by
  induction o with
  | nil => simp [Obj.get] at h
  | cons e rest ih =>
    obtain ⟨k', v'⟩ := e
    by_cases hk : k' = k
    · simp only [Obj.get, hk, if_true, Option.some.injEq] at h
      rw [hk, h]
      exact List.mem_cons_self _ _
    · simp only [Obj.get, hk, if_false] at h
      exact List.mem_cons_of_mem _ (ih h)

theorem isCount_iff_nat (x : Option Num) :
    isCount x = true ↔ ∃ n : Nat, x = some (Num.int (n : Int)) := by
  constructor
  · intro h
    match x, h with
    | some (Num.int n), h =>
      simp only [isCount, decide_eq_true_eq] at h
      exact ⟨n.toNat, by rw [Int.toNat_of_nonneg h]⟩
  · rintro ⟨n, rfl⟩
    simp [isCount]

theorem flipped_binary (old : Option Num) :
    flipped old = Num.int 0 ∨ flipped old = Num.int 1 := by
  unfold flipped
  by_cases h : truthy old = true
  · left; simp [h]
  · right; simp [h]

/-- A toggle keeps every stored bonus in the table at 0 or 1. -/
theorem toggleColorBonus_binary (color itemKey : String) (app : App) (hc : color ≠ "")
    (hk : itemKey ≠ "")
    (hb : ∀ p ∈ app.COLOR_BONUSES, ∀ q ∈ p.2, q.2 = Num.int 0 ∨ q.2 = Num.int 1) :
    ∀ p ∈ (toggleColorBonus color itemKey app).COLOR_BONUSES,
      ∀ q ∈ p.2, q.2 = Num.int 0 ∨ q.2 = Num.int 1 := by
  have hens : ∀ p ∈ ensureColorBonuses app.COLOR_BONUSES color,
      ∀ q ∈ p.2, q.2 = Num.int 0 ∨ q.2 = Num.int 1 := by
    intro p hp
    unfold ensureColorBonuses at hp
    cases hrow : Obj.get app.COLOR_BONUSES color with
    | some row =>
      rw [hrow] at hp
      exact hb p hp
    | none =>
      rw [hrow] at hp
      simp only [] at hp
      split at hp
      · exact hb p hp
      · rcases Obj.mem_set _ _ _ _ hp with h | h
        · exact hb p h
        · rw [h]
          exact (by decide : ∀ q ∈ zeroItems, q.2 = Num.int 0 ∨ q.2 = Num.int 1)
  have hrow : ∀ q ∈ (Obj.get (ensureColorBonuses app.COLOR_BONUSES color) color).getD [],
      q.2 = Num.int 0 ∨ q.2 = Num.int 1 := by
    cases hr : Obj.get (ensureColorBonuses app.COLOR_BONUSES color) color with
    | none => intro q hq; simp at hq
    | some row =>
      intro q hq
      exact hens (color, row) (Obj.mem_of_get _ _ _ hr) q hq
  intro p hp
  rw [toggleColorBonus_table color itemKey app hc hk] at hp
  rcases Obj.mem_set _ _ _ _ hp with h | h
  · exact hens p h
  · rw [h]
    intro q hq
    rcases Obj.mem_set _ _ _ _ hq with h1 | h1
    · exact hrow q h1
    · rw [h1]
      exact flipped_binary _

/-- When every stored bonus is 0 or 1, the base value of an item is 1 or 2. -/
theorem baseValue_one_or_two (bonuses : BonusTable) (house : House) (d : ItemDef)
    (hb : ∀ p ∈ bonuses, ∀ q ∈ p.2, q.2 = Num.int 0 ∨ q.2 = Num.int 1) :
    baseValue bonuses house d = 1 ∨ baseValue bonuses house d = 2 := by
  unfold baseValue
  cases hrow : Obj.get bonuses house.color with
  | none => left; rfl
  | some row =>
    simp only [Option.getD_some]
    cases hv : Obj.get row d.key with
    | none => left; rfl
    | some v =>
      rcases hb (house.color, row) (Obj.mem_of_get _ _ _ hrow) (d.key, v)
        (Obj.mem_of_get _ _ _ hv) with h | h
      · left; simp only at h; rw [h]; rfl
      · right; simp only at h; rw [h]; rfl

/-- The multiplier of an item does not read the count of a card that does not apply to
it. -/
theorem itemMultiplier_setCardCount (house : House) (c : CardDef) (d : ItemDef) (v : Num)
    (hc : c ∈ CARD_DEFS) (hna : c.appliesTo d = false) :
    itemMultiplier (setCardCount house c.key v) d = itemMultiplier house d := by
  rw [itemMultiplier_eq_spec, itemMultiplier_eq_spec]
  unfold specMultiplier
  congr 1
  apply List.map_congr_left
  intro x hx
  have hxm : x ∈ CARD_DEFS := List.mem_of_mem_filter hx
  have hxa : x.appliesTo d = true := by simpa using (List.mem_filter.mp hx).2
  have hne : c.key ≠ x.key := by
    intro hk
    have hcx : c = x := List.inj_on_of_nodup_map CARD_DEFS_keys_nodup hc hxm hk
    rw [hcx, hxa] at hna
    cases hna
  simp only [cardCount, setCardCount]
  rw [Obj.get_set_other _ _ _ _ hne]

theorem itemContribution_setCardCount (bonuses : BonusTable) (house : House) (c : CardDef)
    (d : ItemDef) (v : Num) (hc : c ∈ CARD_DEFS)
    (h : c.appliesTo d = false ∨ itemCount house d.key = 0) :
    itemContribution bonuses (setCardCount house c.key v) d =
      itemContribution bonuses house d := by
  unfold itemContribution
  have e1 : itemCount (setCardCount house c.key v) d.key = itemCount house d.key := rfl
  have e2 : baseValue bonuses (setCardCount house c.key v) d = baseValue bonuses house d := rfl
  rw [e1, e2]
  rcases h with h | h
  · rw [itemMultiplier_setCardCount house c d v hc h]
  · rw [h]
    simp

/-- The score of a house reads the table only through the row of the house's colour. -/
theorem housePoints_congr_row (t t' : BonusTable) (house : House)
    (h : Obj.get t' house.color = Obj.get t house.color) :
    housePoints t' house = housePoints t house := by
  rw [housePoints_eq_sum, housePoints_eq_sum]
  congr 1
  apply List.map_congr_left
  intro d _
  simp only [itemContribution, baseValue, h]

/-- A toggle leaves the score of every house of another colour as it was. -/
theorem housePoints_toggle_other (color itemKey : String) (app : App) (house : House)
    (hne : house.color ≠ color) :
    housePoints (toggleColorBonus color itemKey app).COLOR_BONUSES house =
      housePoints app.COLOR_BONUSES house :=
  housePoints_congr_row _ _ house
    (toggleColorBonus_get_other color itemKey app house.color hne)

/-- In every reachable state the cached points of every house equal its score. -/
theorem reachable_coherent (a : App) (ha : Reachable a) :
    ∀ h ∈ a.houses, h.points = housePoints a.COLOR_BONUSES h := by
  apply reachable_induction_on_data
    (fun hs t => ∀ h ∈ hs, h.points = housePoints t h) _ _ _ _ _ _ a ha
  · decide
  · intro hs t i house inp hP hi h hh
    rcases List.mem_or_eq_of_mem_set hh with hold | hnew
    · exact hP h hold
    · rw [hnew]
      rfl
  · intro hs t C inp hP h hh
    obtain ⟨h0, hmem, rfl⟩ := List.mem_map.mp hh
    by_cases hc : h0.color = C
    · simp only [hc, ne_eq, not_true_eq_false, if_false]
      rfl
    · simp only [hc, ne_eq, not_false_eq_true, if_true]
      exact hP h0 hmem
  · intro hs t color hP h hh
    rw [housePoints_ensure]
    exact hP h hh
  · intro a color itemKey hc hk hP h hh
    rw [toggleColorBonus_houses color itemKey a hc hk] at hh
    obtain ⟨h0, hmem, rfl⟩ := List.mem_map.mp hh
    by_cases hcol : h0.color = color
    · rw [if_pos hcol]
      rfl
    · rw [if_neg hcol, housePoints_toggle_other color itemKey a h0 hcol]
      exact hP h0 hmem
  · intro hs t _ h hh
    obtain ⟨h0, _, rfl⟩ := List.mem_map.mp hh
    symm
    apply housePoints_zeroItems
    intro d hd
    exact zeroItems_count d hd

theorem houseInRange_isCount (bonuses : BonusTable) (house : House)
    (h : houseInRange bonuses house = true) :
    ∀ d ∈ ITEM_DEFS, isCount (Obj.get house.items d.key) = true := by
  intro d hd
  simp only [houseInRange, Bool.and_eq_true, List.all_eq_true] at h
  exact (h.1.1 d hd).1.1

theorem houseInRange_itemsNumeric (bonuses : BonusTable) (house : House)
    (h : houseInRange bonuses house = true) : itemsNumeric house = true := by
  simp only [itemsNumeric, List.all_eq_true]
  intro d hd
  exact isNumber_of_isCount _ (houseInRange_isCount bonuses house h d hd)

theorem valueInRange_of_inputsInRange (inp : Inputs) (h : inputsInRange inp = true) :
    toNonNegativeInt inp.redGift ≤ maxSafeInteger ∧
    toNonNegativeInt inp.blueGift ≤ maxSafeInteger ∧
    toNonNegativeInt inp.redOrn ≤ maxSafeInteger ∧
    toNonNegativeInt inp.blueOrn ≤ maxSafeInteger ∧
    toNonNegativeInt inp.x3RedAll ≤ maxSafeInteger ∧
    toNonNegativeInt inp.x2BlueAll ≤ maxSafeInteger ∧
    toNonNegativeInt inp.x4RedGift ≤ maxSafeInteger := by
  simp only [inputsInRange, valueInRange, Bool.and_eq_true, decide_eq_true_eq] at h
  obtain ⟨⟨⟨⟨⟨⟨h1, h2⟩, h3⟩, h4⟩, h5⟩, h6⟩, h7⟩ := h
  exact ⟨h1, h2, h3, h4, h5, h6, h7⟩

/-- The row `ensureColorBonuses` writes holds zeros: stored bonuses stay 0 or 1. -/
theorem ensureColorBonuses_binary (bonuses : BonusTable) (color : String)
    (hb : ∀ p ∈ bonuses, ∀ q ∈ p.2, q.2 = Num.int 0 ∨ q.2 = Num.int 1) :
    ∀ p ∈ ensureColorBonuses bonuses color, ∀ q ∈ p.2, q.2 = Num.int 0 ∨ q.2 = Num.int 1 := by
  intro p hp
  unfold ensureColorBonuses at hp
  cases hrow : Obj.get bonuses color with
  | some row =>
    rw [hrow] at hp
    exact hb p hp
  | none =>
    rw [hrow] at hp
    simp only [] at hp
    split at hp
    · exact hb p hp
    · rcases Obj.mem_set _ _ _ _ hp with h | h
      · exact hb p h
      · rw [h]
        exact (by decide : ∀ q ∈ zeroItems, q.2 = Num.int 0 ∨ q.2 = Num.int 1)

/-! ## Claims -/

/-- C1: `calculateHousePoints(house)` returns the sum over the four item types of
`count × (1 + bonus) × ∏ factor ^ copies` (product over the cards that apply to the item);
the house it leaves differs from the one it was given only in `points`, which holds that
number (items, cards, name and colour are untouched, and the bonus table is only read);
called again on the result it returns the same value. -/
theorem C1_calculateHousePoints_formula (bonuses : BonusTable) (house : House) :
    (calculateHousePoints bonuses house).1 = specPoints bonuses house ∧
    (calculateHousePoints bonuses house).2 =
      { house with points := specPoints bonuses house } ∧
    (calculateHousePoints bonuses (calculateHousePoints bonuses house).2).1 =
      (calculateHousePoints bonuses house).1 := by
  refine ⟨housePoints_eq_spec bonuses house, ?_, rfl⟩
  simp only [calculateHousePoints, housePoints_eq_spec]

/-- C2: the colour bonus is added to the base unit value before the card multipliers are
applied. For every house whose colour has bonus 1 on an item, the contribution of that
item is `count × 2 × itemMultiplier`, and this differs from
`count × itemMultiplier + count` whenever the count is non-zero and the multiplier is not
1. A house with 3 of an item, bonus 1 on it and no cards scores 6. The red house with
`redGift = 2` and one `x4RedGift` card scores 8 with the bonus off and 16 after
`toggleColorBonus('red', 'redGift')`. -/
theorem C2_bonus_before_multiplier :
    (∀ (bonuses : BonusTable) (house : House) (d : ItemDef),
      colorBonus bonuses house.color d.key = 1 →
        itemContribution bonuses house d =
            itemCount house d.key * 2 * itemMultiplier house d ∧
          (itemCount house d.key ≠ 0 → itemMultiplier house d ≠ 1 →
            itemContribution bonuses house d ≠
              itemCount house d.key * itemMultiplier house d + itemCount house d.key)) ∧
    (∀ d ∈ ITEM_DEFS, ∀ color ∈ COLORS,
      housePoints [(color, [(d.key, Num.int 1)])]
        { makeEmptyHouse "House" color with
          items := Obj.set (makeEmptyHouse "House" color).items d.key (Num.int 3) } = 6) ∧
    (redScenario.houses.map House.points = [0, 0, 8, 0, 0, 0, 0, 0] ∧
      (toggleColorBonus "red" "redGift" redScenario).houses.map House.points =
        [0, 0, 16, 0, 0, 0, 0, 0]) := by
  refine ⟨?_, by decide, by decide⟩
  intro bonuses house d hb
  have h2 : baseValue bonuses house d = 2 := by rw [baseValue_eq, hb]; rfl
  refine ⟨by unfold itemContribution; rw [h2], ?_⟩
  intro hc hm heq
  unfold itemContribution at heq
  rw [h2] at heq
  have h3 : itemCount house d.key * (itemMultiplier house d - 1) = 0 := by linarith
  rcases mul_eq_zero.mp h3 with h | h
  · exact hc h
  · exact hm (by linarith)

/-- Witness of C2 at the red house of the scenario after the bonus is switched on: its
`redGift` contribution is `2 × 2 × 4 = 16`, not `2 × 4 + 2 = 10`. -/
theorem C2_bonus_before_multiplier_witness :
    itemContribution [("red", [("redGift", Num.int 1)])]
        { makeEmptyHouse "Red 1" "red" with
          items := [("redGift", Num.int 2)], cards := [("x4RedGift", Num.int 1)] }
        item_redGift = 16 ∧
      (16 : Int) ≠ 2 * 4 + 2 := by
  constructor
  · rw [(C2_bonus_before_multiplier.1 _ _ _ (by decide)).1]
    decide
  · decide

/-- C3: card multipliers stack multiplicatively per copy and across card types. For every
house, every card `c` of `CARD_DEFS` and every item `d` the card applies to, one more copy
of `c` multiplies the contribution of `d` by `c.factor`; the multiplier of an item is the
product of `factor ^ copies` over all cards that apply to it. Two copies of `x3RedAll`
give ×9 on `redGift`; one `x3RedAll` and one `x4RedGift` give ×12 on `redGift`. -/
theorem C3_cards_stack_multiplicatively :
    (∀ (bonuses : BonusTable) (house : House) (c : CardDef) (d : ItemDef),
      c ∈ CARD_DEFS → c.appliesTo d = true → 0 ≤ cardCount house c.key →
        itemContribution bonuses (addCardCopy house c) d =
          c.factor * itemContribution bonuses house d) ∧
    (∀ (house : House) (d : ItemDef),
      itemMultiplier house d =
        ((CARD_DEFS.filter (fun c => c.appliesTo d)).map
          (fun c => c.factor ^ (cardCount house c.key).toNat)).prod) ∧
    (∀ d ∈ ITEM_DEFS, d.key = "redGift" →
      itemMultiplier
          { makeEmptyHouse "Red 1" "red" with
            cards := [("x3RedAll", Num.int 2), ("x2BlueAll", Num.int 0),
              ("x4RedGift", Num.int 0)] } d = 9 ∧
        itemMultiplier
          { makeEmptyHouse "Red 1" "red" with
            cards := [("x3RedAll", Num.int 1), ("x2BlueAll", Num.int 0),
              ("x4RedGift", Num.int 1)] } d = 12) := by
  refine ⟨?_, itemMultiplier_eq_spec, by decide⟩
  intro bonuses house c d hc happ hpos
  have hm : specMultiplier (addCardCopy house c) d = c.factor * specMultiplier house d := by
    unfold specMultiplier
    apply prod_applicable_bump _ _ _ c CARD_DEFS CARD_DEFS_keys_nodup hc happ
    · intro x _ hx
      simp only [cardCount, addCardCopy]
      rw [Obj.get_set_other _ _ _ _ (Ne.symm hx)]
    · have hset : cardCount (addCardCopy house c) c.key = cardCount house c.key + 1 := by
        simp only [cardCount, addCardCopy]
        rw [Obj.get_set_self]
        rfl
      rw [hset, Int.toNat_add hpos (by decide)]
      simp [pow_succ, mul_comm]
  rw [itemContribution_eq_spec, itemContribution_eq_spec, hm]
  have e1 : itemCount (addCardCopy house c) d.key = itemCount house d.key := rfl
  have e2 : (addCardCopy house c).color = house.color := rfl
  rw [e1, e2]
  ring

/-- Witness of C3: a red house with 5 red gifts and two `x3RedAll` cards; a third copy
multiplies the `redGift` contribution by 3 (45 becomes 135). -/
theorem C3_cards_stack_multiplicatively_witness :
    itemContribution []
        (addCardCopy
          { makeEmptyHouse "Red 1" "red" with
            items := [("redGift", Num.int 5)], cards := [("x3RedAll", Num.int 2)] }
          card_x3RedAll)
        item_redGift = 3 * 45 := by
  rw [C3_cards_stack_multiplicatively.1 [] _ card_x3RedAll item_redGift
    (by simp [CARD_DEFS]) (by decide) (by decide)]
  decide

/-- C4: `calculateTotalPoints()` returns the sum over all houses of the value
`calculateHousePoints` computes from the house's items, cards and colour bonus; the result
does not depend on the values cached in the `points` fields (overwriting them with any
list `stale` of values changes neither the sum nor the houses left behind), and afterwards
every house's `points` holds the freshly computed value. -/
theorem C4_calculateTotalPoints_fresh (bonuses : BonusTable) (houses : List House)
    (stale : List Int) (hlen : stale.length = houses.length) :
    (calculateTotalPoints bonuses houses).1 = (houses.map (housePoints bonuses)).sum ∧
    (calculateTotalPoints bonuses houses).2 =
      houses.map (fun h => { h with points := housePoints bonuses h }) ∧
    calculateTotalPoints bonuses
        (List.zipWith (fun h p => { h with points := p }) houses stale) =
      calculateTotalPoints bonuses houses := by
  refine ⟨by rw [calculateTotalPoints_eq], by rw [calculateTotalPoints_eq]; rfl, ?_⟩
  rw [calculateTotalPoints_eq, calculateTotalPoints_eq]
  have key : ∀ (hs : List House) (ps : List Int), ps.length = hs.length →
      (List.zipWith (fun (h : House) (p : Int) => { h with points := p }) hs ps).map
          (housePoints bonuses) = hs.map (housePoints bonuses) ∧
        (List.zipWith (fun (h : House) (p : Int) => { h with points := p }) hs ps).map
          (fun h => (calculateHousePoints bonuses h).2) =
          hs.map (fun h => (calculateHousePoints bonuses h).2) := by
    intro hs
    induction hs with
    | nil => intro ps _; simp
    | cons h rest ih =>
      intro ps hps
      cases ps with
      | nil => simp at hps
      | cons p ps =>
        simp only [List.length_cons, add_left_inj] at hps
        obtain ⟨i1, i2⟩ := ih ps hps
        simp only [List.zipWith_cons_cons, List.map_cons, i1, i2]
        exact ⟨rfl, rfl⟩
  obtain ⟨k1, k2⟩ := key houses stale hlen
  rw [k1, k2]

/-- Witness of C4 on the scenario board with stale points 7 in every house: the total is
8 and the stale values are replaced. -/
theorem C4_calculateTotalPoints_fresh_witness :
    (calculateTotalPoints redScenario.COLOR_BONUSES
        (List.zipWith (fun h p => { h with points := p }) redScenario.houses
          [7, 7, 7, 7, 7, 7, 7, 7])).1 = 8 ∧
      (calculateTotalPoints redScenario.COLOR_BONUSES
        (List.zipWith (fun h p => { h with points := p }) redScenario.houses
          [7, 7, 7, 7, 7, 7, 7, 7])).2.map House.points = [0, 0, 8, 0, 0, 0, 0, 0] := by
  rw [(C4_calculateTotalPoints_fresh redScenario.COLOR_BONUSES redScenario.houses
    [7, 7, 7, 7, 7, 7, 7, 7] (by decide)).2.2]
  decide

/-- C5: a scoring round run from any state leaves every house with the same name and
colour, items and cards that hold exactly the defined keys, each with count 0, and points
0; `COLOR_BONUSES` is unchanged; the total it reports is the sum of the houses' scores
before the reset; and `calculateTotalPoints()` called right afterwards returns 0, whatever
the bonus table holds. -/
theorem C5_scoring_round_resets (app : App) :
    (btnScoreRoundHandler app).2.houses =
      app.houses.map (fun h =>
        { name := h.name, color := h.color, items := zeroItems, cards := zeroCards,
          points := 0 }) ∧
    Obj.keys zeroItems = ITEM_DEFS.map ItemDef.key ∧
    Obj.keys zeroCards = CARD_DEFS.map CardDef.key ∧
    (btnScoreRoundHandler app).2.COLOR_BONUSES = app.COLOR_BONUSES ∧
    (btnScoreRoundHandler app).1 = (app.houses.map (housePoints app.COLOR_BONUSES)).sum ∧
    (calculateTotalPoints (btnScoreRoundHandler app).2.COLOR_BONUSES
      (btnScoreRoundHandler app).2.houses).1 = 0 := by
  have hh : (btnScoreRoundHandler app).2.houses =
      app.houses.map (fun h =>
        { name := h.name, color := h.color, items := zeroItems, cards := zeroCards,
          points := 0 }) := by
    simp only [btnScoreRoundHandler, calculateTotalPoints_eq, List.map_map]
    apply List.map_congr_left
    intro h _
    simp only [Function.comp, resetHouse_eq, calculateHousePoints]
  refine ⟨hh, by decide, by decide, rfl, ?_, ?_⟩
  · simp only [btnScoreRoundHandler, calculateTotalPoints_eq, List.map_map]
    congr 1
  · rw [calculateTotalPoints_eq, hh]
    simp only [List.map_map]
    apply List.sum_eq_zero
    intro x hx
    obtain ⟨h, _, rfl⟩ := List.mem_map.mp hx
    apply housePoints_zeroItems
    intro d hd
    exact zeroItems_count d hd

/-- C7: `toggleColorBonus(colour, itemKey)` for a non-empty colour and item key (every
palette colour and every key of `ITEM_DEFS` is non-empty and holds 0 on the startup
board). Whatever the table held, the stored bonus of the pair afterwards is 0 or 1. When the
table holds a row for the colour: a stored 0 becomes 1 and a stored 1 becomes 0; every other
(colour, item) entry is unchanged; the colours of the table and the keys of each row are
unchanged when the pair was present; the name, colour, items and cards of every house are
unchanged; and when the pair held 0 or 1 a second toggle restores `COLOR_BONUSES`. -/
theorem C7_toggle_flips_between_zero_and_one :
    (∀ color ∈ COLORS, ∀ d ∈ ITEM_DEFS, color ≠ "" ∧ d.key ≠ "" ∧
      bonusAt startup.COLOR_BONUSES color d.key = some (Num.int 0)) ∧
    (∀ (app : App) (color itemKey : String), color ≠ "" → itemKey ≠ "" →
      (bonusAt (toggleColorBonus color itemKey app).COLOR_BONUSES color itemKey =
          some (Num.int 0) ∨
        bonusAt (toggleColorBonus color itemKey app).COLOR_BONUSES color itemKey =
          some (Num.int 1)) ∧
      (toggleColorBonus color itemKey app).houses.map
          (fun h => (h.name, h.color, h.items, h.cards)) =
        app.houses.map (fun h => (h.name, h.color, h.items, h.cards))) ∧
    (∀ (app : App) (color itemKey : String) (old : Num), color ≠ "" → itemKey ≠ "" →
      bonusAt app.COLOR_BONUSES color itemKey = some old →
      (old = Num.int 0 →
        bonusAt (toggleColorBonus color itemKey app).COLOR_BONUSES color itemKey =
          some (Num.int 1)) ∧
      (old = Num.int 1 →
        bonusAt (toggleColorBonus color itemKey app).COLOR_BONUSES color itemKey =
          some (Num.int 0)) ∧
      (∀ c k, ¬(c = color ∧ k = itemKey) →
        bonusAt (toggleColorBonus color itemKey app).COLOR_BONUSES c k =
          bonusAt app.COLOR_BONUSES c k) ∧
      Obj.keys (toggleColorBonus color itemKey app).COLOR_BONUSES =
        Obj.keys app.COLOR_BONUSES ∧
      (∀ c, (Obj.get (toggleColorBonus color itemKey app).COLOR_BONUSES c).map Obj.keys =
        (Obj.get app.COLOR_BONUSES c).map Obj.keys) ∧
      (old = Num.int 0 ∨ old = Num.int 1 →
        (toggleColorBonus color itemKey (toggleColorBonus color itemKey app)).COLOR_BONUSES =
          app.COLOR_BONUSES)) := by
  refine ⟨by decide, ?_, ?_⟩
  · intro app color itemKey hc hk
    constructor
    · rw [toggleColorBonus_table color itemKey app hc hk]
      unfold bonusAt
      rw [Obj.get_set_self]
      simp only [Option.some_bind, Obj.get_set_self]
      rcases flipped_binary (Obj.get
        ((Obj.get (ensureColorBonuses app.COLOR_BONUSES color) color).getD []) itemKey) with
        h | h
      · left; rw [h]
      · right; rw [h]
    · rw [toggleColorBonus_houses color itemKey app hc hk, List.map_map]
      apply List.map_congr_left
      intro h _
      by_cases hcol : h.color = color
      · simp [hcol]
      · simp [hcol]
  · intro app color itemKey old hc hk hold
    obtain ⟨row, hrow, hval⟩ := bonusAt_eq_some _ _ _ _ hold
    have hb := bonusAt_toggle color itemKey app hc hk row hrow
    refine ⟨?_, ?_, ?_, ?_, ?_, ?_⟩
    · intro h0
      rw [hb, hval, h0]
      simp [flipped, truthy]
    · intro h1
      rw [hb, hval, h1]
      simp [flipped, truthy]
    · intro c k hne
      rw [hb]
      simp [hne]
    · rw [toggleColorBonus_table_of_get color itemKey app hc hk row hrow]
      exact Obj.keys_set_of_get _ _ _ row hrow
    · intro c
      rw [toggleColorBonus_table_of_get color itemKey app hc hk row hrow, Obj.get_set]
      by_cases hcc : color = c
      · subst hcc
        simp [hrow, Obj.keys_set_of_get row itemKey _ old hval]
      · simp [hcc]
    · intro h01
      have h1 := toggleColorBonus_table_of_get color itemKey app hc hk row hrow
      have hrow1 : Obj.get (toggleColorBonus color itemKey app).COLOR_BONUSES color =
          some (Obj.set row itemKey (flipped (Obj.get row itemKey))) := by
        rw [h1, Obj.get_set_self]
      rw [toggleColorBonus_table_of_get color itemKey _ hc hk _ hrow1, h1, Obj.set_set,
        Obj.get_set_self, Obj.set_set]
      have hff : flipped (some (flipped (Obj.get row itemKey))) = old := by
        rw [hval]
        rcases h01 with h | h <;> subst h <;> simp [flipped, truthy]
      rw [hff, Obj.set_get_same row itemKey old hval, Obj.set_get_same _ _ _ hrow]

/-- Witness of C7 on the startup board: toggling red/redGift stores 1, and a second toggle
restores the table. -/
theorem C7_toggle_flips_between_zero_and_one_witness :
    bonusAt (toggleColorBonus "red" "redGift" startup).COLOR_BONUSES "red" "redGift" =
        some (Num.int 1) ∧
      (toggleColorBonus "red" "redGift" (toggleColorBonus "red" "redGift" startup)).COLOR_BONUSES =
        startup.COLOR_BONUSES :=
  ⟨(C7_toggle_flips_between_zero_and_one.2.2 startup "red" "redGift" (Num.int 0) (by decide)
      (by decide) (by decide)).1 rfl,
    (C7_toggle_flips_between_zero_and_one.2.2 startup "red" "redGift" (Num.int 0) (by decide)
      (by decide) (by decide)).2.2.2.2.2 (Or.inl rfl)⟩

/-- C8, counterexample to the claim as stated: on the startup board every house is empty,
so `toggleColorBonus('orange', 'redGift')` changes neither the score nor the stored points
of the two orange houses (indices 0 and 4): both are 0 before and after. -/
theorem C8_toggle_counterexample :
    startup.houses.map House.color =
        ["orange", "pink", "red", "yellow", "orange", "pink", "red", "yellow"] ∧
      bonusAt (toggleColorBonus "orange" "redGift" startup).COLOR_BONUSES "orange" "redGift" =
        some (Num.int 1) ∧
      startup.houses.map (housePoints startup.COLOR_BONUSES) = [0, 0, 0, 0, 0, 0, 0, 0] ∧
      startup.houses.map
          (housePoints (toggleColorBonus "orange" "redGift" startup).COLOR_BONUSES) =
        [0, 0, 0, 0, 0, 0, 0, 0] ∧
      startup.houses.map House.points = [0, 0, 0, 0, 0, 0, 0, 0] ∧
      (toggleColorBonus "orange" "redGift" startup).houses.map House.points =
        [0, 0, 0, 0, 0, 0, 0, 0] := by
  decide

/-- C8, amended: `toggleColorBonus(C, K)` for a non-empty colour `C` and an item key `K` of
`ITEM_DEFS` whose stored bonus is 0 or 1. Every house of colour `C` has its stored points
recomputed under the new table and is otherwise unchanged; its score moves by exactly
`count_K × itemMultiplier_K`, up when the bonus was 0 and down when it was 1, so it changes
exactly when the house holds a non-zero count of `K`. A house of another colour keeps its
score and is unchanged. -/
theorem C8_toggle_recomputes_houses_of_colour (app : App) (C : String) (d : ItemDef)
    (old : Num) (hC : C ≠ "") (hd : d ∈ ITEM_DEFS)
    (hold : bonusAt app.COLOR_BONUSES C d.key = some old)
    (h01 : old = Num.int 0 ∨ old = Num.int 1) :
    (toggleColorBonus C d.key app).houses.length = app.houses.length ∧
    ∀ (i : Nat) (h : House), app.houses[i]? = some h →
      ∃ h', (toggleColorBonus C d.key app).houses[i]? = some h' ∧
        (h.color = C →
          h' = { h with points := housePoints (toggleColorBonus C d.key app).COLOR_BONUSES h } ∧
          h'.points = housePoints (toggleColorBonus C d.key app).COLOR_BONUSES h' ∧
          housePoints (toggleColorBonus C d.key app).COLOR_BONUSES h =
            housePoints app.COLOR_BONUSES h +
              (if old = Num.int 0 then 1 else -1) * (itemCount h d.key * itemMultiplier h d) ∧
          (housePoints (toggleColorBonus C d.key app).COLOR_BONUSES h ≠
              housePoints app.COLOR_BONUSES h ↔ itemCount h d.key ≠ 0)) ∧
        (h.color ≠ C →
          h' = h ∧
          housePoints (toggleColorBonus C d.key app).COLOR_BONUSES h =
            housePoints app.COLOR_BONUSES h) := by
  have hk := ITEM_DEFS_key_ne_empty d hd
  have hhouses := toggleColorBonus_houses C d.key app hC hk
  refine ⟨by rw [hhouses]; simp, ?_⟩
  intro i h hi
  have hp := housePoints_toggle C d app old hC hd hold h
  by_cases hcol : h.color = C
  · refine ⟨{ h with points := housePoints (toggleColorBonus C d.key app).COLOR_BONUSES h },
      ?_, ?_, ?_⟩
    · rw [hhouses, List.getElem?_map, hi]
      simp [hcol]
    · intro _
      rw [if_pos hcol] at hp
      have hsign : orZero (some (flipped (some old))) - orZero (some old) =
          if old = Num.int 0 then 1 else -1 := by
        rcases h01 with h0 | h1
        · subst h0; simp [flipped, truthy, orZero]
        · subst h1; simp [flipped, truthy, orZero]
      rw [hsign] at hp
      refine ⟨rfl, rfl, hp, ?_⟩
      rw [hp]
      have hpos := itemMultiplier_pos h d
      constructor
      · intro hne h0
        apply hne
        rw [h0]
        simp
      · intro hcnt heq
        have hz : (if old = Num.int 0 then (1 : Int) else -1) *
            (itemCount h d.key * itemMultiplier h d) = 0 := by linarith
        rcases mul_eq_zero.mp hz with hs | hm
        · split at hs <;> omega
        · rcases mul_eq_zero.mp hm with h1 | h2
          · exact hcnt h1
          · omega
    · intro hne; exact absurd hcol hne
  · refine ⟨h, ?_, fun hcc => absurd hcc hcol, fun _ => ⟨rfl, ?_⟩⟩
    · rw [hhouses, List.getElem?_map, hi]
      simp [hcol]
    · rw [hp, if_neg hcol]

/-- Witness of C8 (amended) on the red scenario: switching the red/redGift bonus on moves
house 2 (two red gifts, one `x4RedGift`) from 8 to 16 and leaves the empty red house 6 and
all houses of other colours where they were. -/
theorem C8_toggle_recomputes_houses_of_colour_witness :
    item_redGift ∈ ITEM_DEFS ∧
    bonusAt redScenario.COLOR_BONUSES "red" item_redGift.key = some (Num.int 0) ∧
    (toggleColorBonus "red" item_redGift.key redScenario).houses.length = 8 ∧
    (toggleColorBonus "red" item_redGift.key redScenario).houses.map House.points =
      [0, 0, 16, 0, 0, 0, 0, 0] :=
  ⟨by decide, by decide,
    (C8_toggle_recomputes_houses_of_colour redScenario "red" item_redGift (Num.int 0)
      (by decide) (by decide) (by decide) (Or.inl rfl)).1.trans (by decide),
    by decide⟩

/-- C11: the code at the failing input. With house mode and an index that names no house
(`houses[i]` is `undefined`: negative, `NaN` or past the end), every Save listener throws
a `TypeError` instead of returning; the click leaves the houses and `COLOR_BONUSES` as
they were and the modal open. On the startup board with index 8 the listener throws. -/
theorem C11_house_edit_bad_index_throws :
    btnSaveHandler emptyInputs (openHouseModal (Num.int 8) startup) =
      Except.error JsError.typeError ∧
    btnSaveHandler emptyInputs (openHouseModal (Num.int (-1)) startup) =
      Except.error JsError.typeError ∧
    btnSaveHandler emptyInputs (openHouseModal Num.nan startup) =
      Except.error JsError.typeError ∧
    (∀ (app : App) (i : Num) (inp : Inputs) (listeners : List Inputs),
      houseAt app.houses i = none →
        btnSaveHandler inp (openHouseModal i app) = Except.error JsError.typeError ∧
        saveHouseEdit i listeners app = openHouseModal i app ∧
        (saveHouseEdit i listeners app).houses = app.houses ∧
        (saveHouseEdit i listeners app).COLOR_BONUSES = app.COLOR_BONUSES) := by
  refine ⟨btnSaveHandler_no_house _ _ (Num.int 8) rfl rfl (by decide),
    btnSaveHandler_no_house _ _ (Num.int (-1)) rfl rfl (by decide),
    btnSaveHandler_no_house _ _ Num.nan rfl rfl (by decide), ?_⟩
  intro app i inp listeners hat
  have hc : saveHouseEdit i listeners app = openHouseModal i app :=
    btnSaveClick_no_house listeners (openHouseModal i app) i rfl rfl hat
  refine ⟨btnSaveHandler_no_house inp (openHouseModal i app) i rfl rfl hat, hc, ?_, ?_⟩
  · rw [hc]; rfl
  · rw [hc]; rfl

/-- C15: each card multiplies exactly the items its label names. `x3RedAll` has factor 3
and applies to `redGift` and `redOrn` only, `x2BlueAll` has factor 2 and applies to
`blueGift` and `blueOrn` only, `x4RedGift` has factor 4 and applies to `redGift` only. For
every house, the contribution of an item does not depend on the count of a card that does
not apply to it: that of `redOrn` not on `x4RedGift` or `x2BlueAll`, that of the blue items
not on `x3RedAll` or `x4RedGift`. The points of a house do not depend on the count of a
card that applies to none of the items the house holds. -/
theorem C15_cards_apply_to_named_items :
    (CARD_DEFS.map (fun c => (c.key, c.factor, (ITEM_DEFS.filter c.appliesTo).map ItemDef.key)) =
      [ ("x3RedAll", 3, ["redGift", "redOrn"]), ("x2BlueAll", 2, ["blueGift", "blueOrn"]),
        ("x4RedGift", 4, ["redGift"]) ]) ∧
    (∀ (bonuses : BonusTable) (house : House) (c : CardDef) (d : ItemDef) (v : Num),
      c ∈ CARD_DEFS → c.appliesTo d = false →
        itemContribution bonuses (setCardCount house c.key v) d =
          itemContribution bonuses house d) ∧
    (∀ (bonuses : BonusTable) (house : House) (v : Num),
      itemContribution bonuses (setCardCount house "x4RedGift" v) item_redOrn =
        itemContribution bonuses house item_redOrn ∧
      itemContribution bonuses (setCardCount house "x2BlueAll" v) item_redOrn =
        itemContribution bonuses house item_redOrn ∧
      itemContribution bonuses (setCardCount house "x3RedAll" v) item_blueGift =
        itemContribution bonuses house item_blueGift ∧
      itemContribution bonuses (setCardCount house "x4RedGift" v) item_blueGift =
        itemContribution bonuses house item_blueGift ∧
      itemContribution bonuses (setCardCount house "x3RedAll" v) item_blueOrn =
        itemContribution bonuses house item_blueOrn ∧
      itemContribution bonuses (setCardCount house "x4RedGift" v) item_blueOrn =
        itemContribution bonuses house item_blueOrn) ∧
    (∀ (bonuses : BonusTable) (house : House) (c : CardDef) (v : Num), c ∈ CARD_DEFS →
      (∀ d ∈ ITEM_DEFS, c.appliesTo d = true → itemCount house d.key = 0) →
        housePoints bonuses (setCardCount house c.key v) = housePoints bonuses house) := by
  have m1 : card_x3RedAll ∈ CARD_DEFS := by simp [CARD_DEFS]
  have m2 : card_x2BlueAll ∈ CARD_DEFS := by simp [CARD_DEFS]
  have m3 : card_x4RedGift ∈ CARD_DEFS := by simp [CARD_DEFS]
  refine ⟨by decide, ?_, ?_, ?_⟩
  · intro bonuses house c d v hc hna
    exact itemContribution_setCardCount bonuses house c d v hc (Or.inl hna)
  · intro bonuses house v
    exact ⟨itemContribution_setCardCount bonuses house card_x4RedGift item_redOrn v m3
        (Or.inl (by decide)),
      itemContribution_setCardCount bonuses house card_x2BlueAll item_redOrn v m2
        (Or.inl (by decide)),
      itemContribution_setCardCount bonuses house card_x3RedAll item_blueGift v m1
        (Or.inl (by decide)),
      itemContribution_setCardCount bonuses house card_x4RedGift item_blueGift v m3
        (Or.inl (by decide)),
      itemContribution_setCardCount bonuses house card_x3RedAll item_blueOrn v m1
        (Or.inl (by decide)),
      itemContribution_setCardCount bonuses house card_x4RedGift item_blueOrn v m3
        (Or.inl (by decide))⟩
  · intro bonuses house c v hc hnone
    rw [housePoints_eq_sum, housePoints_eq_sum]
    congr 1
    apply List.map_congr_left
    intro d hd
    apply itemContribution_setCardCount bonuses house c d v hc
    by_cases ha : c.appliesTo d = true
    · exact Or.inr (hnone d hd ha)
    · exact Or.inl (by simpa using ha)

/-- Witness of C15: a house with 2 red ornaments and 3 blue gifts scores 5; a count of 7
`x4RedGift` cards, which applies to nothing it holds, leaves the score at 5. -/
theorem C15_cards_apply_to_named_items_witness :
    housePoints []
        (setCardCount
          { makeEmptyHouse "Pink 1" "pink" with
            items := [("redGift", Num.int 0), ("blueGift", Num.int 3), ("redOrn", Num.int 2),
              ("blueOrn", Num.int 0)] }
          card_x4RedGift.key (Num.int 7)) = 5 := by
  rw [C15_cards_apply_to_named_items.2.2.2 [] _ card_x4RedGift (Num.int 7)
    (by simp [CARD_DEFS]) (by decide)]
  decide

/-- C6: saving a colour delta, that is a click on Save while the colour modal is open for a
non-empty colour `C`, in the range where the script's doubles are exact (inputs in range,
the houses of colour `C` in range before and after). `COLOR_BONUSES` is unchanged and the
list of houses keeps its length. Every house keeps its name, colour and cards. A house of
another colour is unchanged altogether (items, cards, points). A house of colour `C` has
each of its four item counts increased by exactly the clamped delta, keeps the same item
keys, and its points are recomputed from the new counts. If no house has colour `C` no
house changes. Opening the colour modal for a colour that has a row in the table (as every
palette colour has) changes only the modal variables. On the startup board, +1 `blueOrn`
to orange raises `blueOrn` by 1 in exactly houses 0 and 4. -/
theorem C6_color_delta_adds_to_matching_houses :
    (∀ (app : App) (C : String) (inp : Inputs) (rest : List Inputs),
      app.modalMode = "color" → app.currentColor = some C → C ≠ "" →
      inputsInRange inp = true →
      (∀ h ∈ app.houses, h.color = C →
        houseInRange app.COLOR_BONUSES h = true ∧
        houseInRange app.COLOR_BONUSES (addToHouse app.COLOR_BONUSES inp h) = true) →
      (btnSaveClick (inp :: rest) app).COLOR_BONUSES = app.COLOR_BONUSES ∧
      (btnSaveClick (inp :: rest) app).houses.length = app.houses.length ∧
      (∀ (i : Nat) (h : House), app.houses[i]? = some h →
        ∃ h', (btnSaveClick (inp :: rest) app).houses[i]? = some h' ∧
          h'.name = h.name ∧ h'.color = h.color ∧ h'.cards = h.cards ∧
          (h.color ≠ C → h' = h) ∧
          (h.color = C →
            itemCount h' "redGift" = itemCount h "redGift" + toNonNegativeInt inp.redGift ∧
            itemCount h' "blueGift" =
              itemCount h "blueGift" + toNonNegativeInt inp.blueGift ∧
            itemCount h' "redOrn" = itemCount h "redOrn" + toNonNegativeInt inp.redOrn ∧
            itemCount h' "blueOrn" = itemCount h "blueOrn" + toNonNegativeInt inp.blueOrn ∧
            Obj.keys h'.items = Obj.keys h.items ∧
            h'.points = housePoints app.COLOR_BONUSES h')) ∧
      ((∀ h ∈ app.houses, h.color ≠ C) →
        (btnSaveClick (inp :: rest) app).houses = app.houses)) ∧
    (∀ (app : App) (C : String) (row : Obj Num), Obj.get app.COLOR_BONUSES C = some row →
      openColorModal C app =
        { app with modalMode := "color", currentHouseIndex := none, currentColor := some C }) ∧
    (saveColorDelta "orange" [{ emptyInputs with blueOrn := JsVal.str "1" }] startup).houses.map
        (fun h => (h.name, ITEM_DEFS.map (fun d => itemCount h d.key), h.cards, h.points)) =
      [ ("Orange 1", [0, 0, 0, 1], zeroCards, 1), ("Pink 1", [0, 0, 0, 0], zeroCards, 0),
        ("Red 1", [0, 0, 0, 0], zeroCards, 0), ("Yellow 1", [0, 0, 0, 0], zeroCards, 0),
        ("Orange 2", [0, 0, 0, 1], zeroCards, 1), ("Pink 2", [0, 0, 0, 0], zeroCards, 0),
        ("Red 2", [0, 0, 0, 0], zeroCards, 0), ("Yellow 2", [0, 0, 0, 0], zeroCards, 0) ] := by
  refine ⟨?_, ?_, by decide⟩
  · intro app C inp rest hm hcur hC _ hrange
    rw [btnSaveClick_color C inp rest app hm hcur hC]
    refine ⟨rfl, by simp [closeHouseModal], ?_, ?_⟩
    · intro i h hi
      by_cases hc : h.color = C
      · refine ⟨addToHouse app.COLOR_BONUSES inp h, ?_, rfl, rfl, rfl, ?_, ?_⟩
        · simp [closeHouseModal, List.getElem?_map, hi, hc]
        · intro hne; exact absurd hc hne
        · intro _
          have hmem : h ∈ app.houses := List.getElem?_mem hi
          obtain ⟨a1, a2, a3, a4, a5, _⟩ :=
            addToHouse_items app.COLOR_BONUSES inp h
              (houseInRange_itemsNumeric _ _ (hrange h hmem hc).1)
          exact ⟨a1, a2, a3, a4, a5, rfl⟩
      · refine ⟨h, ?_, rfl, rfl, rfl, fun _ => rfl, fun hcc => absurd hcc hc⟩
        simp [closeHouseModal, List.getElem?_map, hi, hc]
    · intro hnone
      simp only [closeHouseModal]
      conv_rhs => rw [← List.map_id app.houses]
      apply List.map_congr_left
      intro h hh
      simp [hnone h hh]
  · intro app C row hrow
    by_cases hC : C = ""
    · simp [openColorModal, renderColorBonuses, hC]
    · simp [openColorModal, renderColorBonuses, hC, ensureColorBonuses_of_get _ _ row hrow]

/-- Witness of C6: on the board of the red scenario (house 2 holds two red gifts) with the
colour modal open for red, saving +3 `redGift` adds 3 to house 2 (2 becomes 5) and to house
6 (0 becomes 3) and leaves the table as it was. -/
theorem C6_color_delta_adds_to_matching_houses_witness :
    (openColorModal "red" redScenario).modalMode = "color" ∧
    inputsInRange { emptyInputs with redGift := JsVal.str "3" } = true ∧
    (btnSaveClick [{ emptyInputs with redGift := JsVal.str "3" }]
      (openColorModal "red" redScenario)).COLOR_BONUSES = redScenario.COLOR_BONUSES ∧
    (btnSaveClick [{ emptyInputs with redGift := JsVal.str "3" }]
      (openColorModal "red" redScenario)).houses.map (fun h => itemCount h "redGift") =
        [0, 0, 5, 0, 0, 0, 3, 0] :=
  ⟨rfl, by decide,
    (C6_color_delta_adds_to_matching_houses.1 (openColorModal "red" redScenario) "red"
      { emptyInputs with redGift := JsVal.str "3" } [] rfl rfl (by decide) (by decide)
      (by decide)).1.trans (by decide),
    by decide⟩

/-- C9: saving a house edit for an existing house index `i`, in the range where the
script's doubles are exact (the overwritten house is in range: its seven counts, which are
the clamped inputs, and its score are at most `2^53`). Afterwards
house `i` keeps its name and colour; each of its four item counts and three card counts is
the clamped input for that key, whatever the house held before; its points equal the
scoring formula on the new values; every other house and `COLOR_BONUSES` are unchanged. -/
theorem C9_house_edit_overwrites (app : App) (i : Nat) (house : House) (inp : Inputs)
    (rest : List Inputs) (hi : app.houses[i]? = some house)
    (hrange : houseInRange app.COLOR_BONUSES
      (overwriteHouse app.COLOR_BONUSES inp house) = true) :
    (saveHouseEdit (Num.int i) (inp :: rest) app).COLOR_BONUSES = app.COLOR_BONUSES ∧
    (saveHouseEdit (Num.int i) (inp :: rest) app).houses.length = app.houses.length ∧
    (∀ j, j ≠ i →
      (saveHouseEdit (Num.int i) (inp :: rest) app).houses[j]? = app.houses[j]?) ∧
    ∃ h', (saveHouseEdit (Num.int i) (inp :: rest) app).houses[i]? = some h' ∧
      h'.name = house.name ∧ h'.color = house.color ∧
      Obj.get h'.items "redGift" = some (Num.int (toNonNegativeInt inp.redGift)) ∧
      Obj.get h'.items "blueGift" = some (Num.int (toNonNegativeInt inp.blueGift)) ∧
      Obj.get h'.items "redOrn" = some (Num.int (toNonNegativeInt inp.redOrn)) ∧
      Obj.get h'.items "blueOrn" = some (Num.int (toNonNegativeInt inp.blueOrn)) ∧
      Obj.get h'.cards "x3RedAll" = some (Num.int (toNonNegativeInt inp.x3RedAll)) ∧
      Obj.get h'.cards "x2BlueAll" = some (Num.int (toNonNegativeInt inp.x2BlueAll)) ∧
      Obj.get h'.cards "x4RedGift" = some (Num.int (toNonNegativeInt inp.x4RedGift)) ∧
      h'.points = specPoints app.COLOR_BONUSES h' ∧
      h'.points ≤ maxSafeInteger := by
  rw [saveHouseEdit_eq i inp rest app house hi]
  have hlt : i < app.houses.length := by
    rcases List.getElem?_eq_some_iff.mp hi with ⟨h, _⟩
    exact h
  refine ⟨rfl, by simp [closeHouseModal], ?_, ?_⟩
  · intro j hj
    simp only [closeHouseModal]
    exact List.getElem?_set_ne (Ne.symm hj)
  · refine ⟨overwriteHouse app.COLOR_BONUSES inp house, ?_, ?_⟩
    · simp only [closeHouseModal]
      exact List.getElem?_set_self hlt
    · obtain ⟨a1, a2, a3, a4, a5, a6, a7, a8, a9, a10⟩ :=
        overwriteHouse_fields app.COLOR_BONUSES inp house
      refine ⟨a1, a2, a3, a4, a5, a6, a7, a8, a9, by rw [a10, housePoints_eq_spec], ?_⟩
      rw [a10]
      simp only [houseInRange, Bool.and_eq_true, decide_eq_true_eq] at hrange
      exact hrange.2

/-- Witness of C9: on the red scenario (house 2 holds two red gifts and one `x4RedGift`),
saving house 2 with `blueOrn = 5` and `x2BlueAll = 1` leaves it with no red gift, five blue
ornaments, one `x2BlueAll`, no `x4RedGift` and 10 points; the other houses are as before. -/
theorem C9_house_edit_overwrites_witness :
    redScenario.houses[2]?.map House.name = some "Red 1" ∧
    (saveHouseEdit (Num.int 2)
      [{ emptyInputs with blueOrn := JsVal.str "5", x2BlueAll := JsVal.str "1" }]
      redScenario).COLOR_BONUSES = redScenario.COLOR_BONUSES ∧
    (saveHouseEdit (Num.int 2)
      [{ emptyInputs with blueOrn := JsVal.str "5", x2BlueAll := JsVal.str "1" }]
      redScenario).houses.map
        (fun h => (ITEM_DEFS.map (fun d => itemCount h d.key),
          CARD_DEFS.map (fun c => cardCount h c.key), h.points)) =
      [ ([0, 0, 0, 0], [0, 0, 0], 0), ([0, 0, 0, 0], [0, 0, 0], 0),
        ([0, 0, 0, 5], [0, 1, 0], 10), ([0, 0, 0, 0], [0, 0, 0], 0),
        ([0, 0, 0, 0], [0, 0, 0], 0), ([0, 0, 0, 0], [0, 0, 0], 0),
        ([0, 0, 0, 0], [0, 0, 0], 0), ([0, 0, 0, 0], [0, 0, 0], 0) ] :=
  ⟨by decide,
    (C9_house_edit_overwrites redScenario 2 (overwriteHouse startup.COLOR_BONUSES
      { emptyInputs with redGift := JsVal.str "2", x4RedGift := JsVal.str "1" }
      (makeEmptyHouse "Red 1" "red"))
      { emptyInputs with blueOrn := JsVal.str "5", x2BlueAll := JsVal.str "1" } []
      (by decide) (by decide)).1,
    by decide⟩

/-- C10, counterexample to the claim as stated: the text `12abc` is not numeric, yet
`toNonNegativeInt` returns 12 for it, not 0 (`parseInt` reads the leading digits and
ignores the rest). For the same reason the numeric text `1e3`, which a number field
delivers for one thousand, gives 1. -/
theorem C10_nonnumeric_counterexample :
    isNumericText "12abc" = false ∧ toNonNegativeInt (JsVal.str "12abc") = 12 ∧
      toNonNegativeInt (JsVal.str "12abc") ≠ 0 ∧
      isNumericText "1e3" = true ∧ toNonNegativeInt (JsVal.str "1e3") = 1 := by
  decide

/-- C10, amended, in the range where the script's doubles are exact (values of at most
`2^53`). `toNonNegativeInt` is total; for an input in range its result is an integer from
0 to `2^53`. It returns 0 for a missing input (`undefined`, `null`, the empty text, the
number 0 passed for a missing element), for every text that is a minus sign followed by
decimal digits, and for every text whose first character after leading white space is
neither a digit nor a sign. For the decimal text of a natural number `n` of at most `2^53`,
alone or followed by anything that does not start with a digit, it returns `n`. Hence a
house edit with inputs in range stores a non-negative integer under every item and card
key, and a colour delta whose sums stay in range keeps non-negative integer item counts
non-negative integers. -/
theorem C10_toNonNegativeInt_clamps :
    (∀ value : JsVal, valueInRange value = true →
      0 ≤ toNonNegativeInt value ∧ toNonNegativeInt value ≤ maxSafeInteger) ∧
    (toNonNegativeInt JsVal.undefined = 0 ∧ toNonNegativeInt JsVal.null = 0 ∧
      toNonNegativeInt (JsVal.str "") = 0 ∧ toNonNegativeInt JsVal.zero = 0) ∧
    (∀ (n : Nat) (tail : String), (∀ c, tail.data.head? = some c → isDecDigit c = false) →
      toNonNegativeInt (JsVal.str ("-" ++ (toString n ++ tail))) = 0) ∧
    (∀ s : String,
      (∀ c, (s.data.dropWhile isJsWhiteSpace).head? = some c →
        isDecDigit c = false ∧ c ≠ '-' ∧ c ≠ '+') →
      toNonNegativeInt (JsVal.str s) = 0) ∧
    (∀ n : Nat, (n : Int) ≤ maxSafeInteger →
      toNonNegativeInt (JsVal.str (toString n)) = n ∧
      valueInRange (JsVal.str (toString n)) = true) ∧
    (∀ (n : Nat) (tail : String), (n : Int) ≤ maxSafeInteger →
      (∀ c, tail.data.head? = some c → isDecDigit c = false) →
      toNonNegativeInt (JsVal.str (toString n ++ tail)) = n) ∧
    (∀ (bonuses : BonusTable) (inp : Inputs) (house : House), inputsInRange inp = true →
      (∀ d ∈ ITEM_DEFS,
        isCount (Obj.get (overwriteHouse bonuses inp house).items d.key) = true ∧
        itemCount (overwriteHouse bonuses inp house) d.key ≤ maxSafeInteger) ∧
      (∀ c ∈ CARD_DEFS,
        isCount (Obj.get (overwriteHouse bonuses inp house).cards c.key) = true ∧
        cardCount (overwriteHouse bonuses inp house) c.key ≤ maxSafeInteger)) ∧
    (∀ (bonuses : BonusTable) (inp : Inputs) (house : House), inputsInRange inp = true →
      (∀ d ∈ ITEM_DEFS, isCount (Obj.get house.items d.key) = true) →
      (∀ d ∈ ITEM_DEFS, itemCount (addToHouse bonuses inp house) d.key ≤ maxSafeInteger) →
      ∀ d ∈ ITEM_DEFS, isCount (Obj.get (addToHouse bonuses inp house).items d.key) = true) := by
  refine ⟨?_, by decide, toNonNegativeInt_str_minus, ?_, ?_, ?_, ?_, ?_⟩
  · intro value hv
    simp only [valueInRange, decide_eq_true_eq] at hv
    exact ⟨toNonNegativeInt_nonneg value, hv⟩
  · intro s hs
    have hp : parseInt (JsVal.str s) = none := parseIntChars_no_number s.data hs
    simp [toNonNegativeInt, hp]
  · intro n hn
    have h := toNonNegativeInt_str_digits n "" (by simp)
    rw [String.append_empty] at h
    refine ⟨h, ?_⟩
    simp only [valueInRange, decide_eq_true_eq, h]
    exact hn
  · intro n tail _ htail
    exact toNonNegativeInt_str_digits n tail htail
  · intro bonuses inp house hin
    obtain ⟨_, _, a3, a4, a5, a6, a7, a8, a9, _⟩ := overwriteHouse_fields bonuses inp house
    obtain ⟨r1, r2, r3, r4, r5, r6, r7⟩ := valueInRange_of_inputsInRange inp hin
    have hc := overwriteHouse_isCount bonuses inp house
    constructor
    · intro d hd
      refine ⟨hc.1 d hd, ?_⟩
      simp only [ITEM_DEFS, List.mem_cons, List.mem_singleton, List.not_mem_nil, or_false]
        at hd
      rcases hd with rfl | rfl | rfl | rfl
      · simpa only [itemCount, item_redGift, a3, orZero] using r1
      · simpa only [itemCount, item_blueGift, a4, orZero] using r2
      · simpa only [itemCount, item_redOrn, a5, orZero] using r3
      · simpa only [itemCount, item_blueOrn, a6, orZero] using r4
    · intro c hcm
      refine ⟨hc.2 c hcm, ?_⟩
      simp only [CARD_DEFS, List.mem_cons, List.mem_singleton, List.not_mem_nil, or_false]
        at hcm
      rcases hcm with rfl | rfl | rfl
      · simpa only [cardCount, card_x3RedAll, a7, orZero] using r5
      · simpa only [cardCount, card_x2BlueAll, a8, orZero] using r6
      · simpa only [cardCount, card_x4RedGift, a9, orZero] using r7
  · intro bonuses inp house _ hcnt _
    exact addToHouse_isCount bonuses inp house hcnt

/-- Witness of C10 (amended): `42 apples` gives 42, `-42 apples` gives 0, `abc` gives 0. -/
theorem C10_toNonNegativeInt_clamps_witness :
    toNonNegativeInt (JsVal.str (toString 42 ++ " apples")) = (42 : Nat) ∧
    toNonNegativeInt (JsVal.str ("-" ++ (toString 42 ++ " apples"))) = 0 ∧
    toNonNegativeInt (JsVal.str "abc") = 0 :=
  ⟨C10_toNonNegativeInt_clamps.2.2.2.2.2.1 42 " apples" (by decide) (by decide),
    C10_toNonNegativeInt_clamps.2.2.1 42 " apples" (by decide),
    C10_toNonNegativeInt_clamps.2.2.2.1 "abc" (by decide)⟩

/-- C12, counterexample to the claim as stated: `green` is not a palette colour and the
startup table has no row for it, yet `toggleColorBonus('green', 'redGift')` changes
`COLOR_BONUSES`: it adds a fifth colour `green` whose `redGift` bonus is 1. -/
theorem C12_toggle_unknown_colour_counterexample :
    "green" ∉ COLORS ∧ "green" ∉ objectPrototypeNames ∧
    Obj.keys startup.COLOR_BONUSES = ["yellow", "red", "orange", "pink"] ∧
    Obj.keys (toggleColorBonus "green" "redGift" startup).COLOR_BONUSES =
      ["yellow", "red", "orange", "pink", "green"] ∧
    bonusAt (toggleColorBonus "green" "redGift" startup).COLOR_BONUSES "green" "redGift" =
      some (Num.int 1) ∧
    (toggleColorBonus "green" "redGift" startup).COLOR_BONUSES ≠ startup.COLOR_BONUSES := by
  decide

/-- C12, amended: `toggleColorBonus` with an empty colour returns at line 623 and changes
nothing. For a colour and an item key that are not names inherited from `Object.prototype`:
with a non-empty colour that has no row in `COLOR_BONUSES` it appends a row for that colour,
every item key at 0 except the toggled key at 1; the rows of all other colours are as
before; a house of another colour is unchanged; and in every reachable state all houses
have palette colours, so a toggle for a colour outside the palette changes no house. -/
theorem C12_toggle_unknown_colour_adds_row :
    (∀ (app : App) (itemKey : String), toggleColorBonus "" itemKey app = app) ∧
    (∀ (app : App) (color itemKey : String), color ≠ "" → itemKey ≠ "" →
      color ∉ objectPrototypeNames → itemKey ∉ objectPrototypeNames →
      Obj.get app.COLOR_BONUSES color = none →
      (toggleColorBonus color itemKey app).COLOR_BONUSES =
        app.COLOR_BONUSES ++ [(color, Obj.set zeroItems itemKey (Num.int 1))]) ∧
    (∀ (app : App) (color itemKey c : String),
      color ∉ objectPrototypeNames → itemKey ∉ objectPrototypeNames → c ≠ color →
      Obj.get (toggleColorBonus color itemKey app).COLOR_BONUSES c =
        Obj.get app.COLOR_BONUSES c) ∧
    (∀ (app : App) (color itemKey : String),
      color ∉ objectPrototypeNames → itemKey ∉ objectPrototypeNames →
      (∀ h ∈ app.houses, h.color ≠ color) →
      (toggleColorBonus color itemKey app).houses = app.houses) ∧
    (∀ (app : App) (color itemKey : String), Reachable app →
      color ∉ objectPrototypeNames → itemKey ∉ objectPrototypeNames → color ∉ COLORS →
      (toggleColorBonus color itemKey app).houses = app.houses) := by
  refine ⟨fun app itemKey => toggleColorBonus_empty "" itemKey app (Or.inl rfl),
    fun app color itemKey hc hk hni _ hrow =>
      toggleColorBonus_table_of_none color itemKey app hc hk hrow hni,
    fun app color itemKey c _ _ hne => toggleColorBonus_get_other color itemKey app c hne,
    fun app color itemKey _ _ hno =>
      toggleColorBonus_houses_of_no_house color itemKey app hno, ?_⟩
  intro app color itemKey ha _ _ hcol
  apply toggleColorBonus_houses_of_no_house
  intro h hh heq
  exact hcol (heq ▸ reachable_color_mem app ha h hh)

/-- Witness of C12 (amended) on the red scenario: toggling green/blueOrn appends the row
for green and leaves the eight houses as they were. -/
theorem C12_toggle_unknown_colour_adds_row_witness :
    Reachable redScenario ∧
    (toggleColorBonus "green" "blueOrn" redScenario).COLOR_BONUSES =
      redScenario.COLOR_BONUSES ++
        [("green", [("redGift", Num.int 0), ("blueGift", Num.int 0), ("redOrn", Num.int 0),
          ("blueOrn", Num.int 1)])] ∧
    (toggleColorBonus "green" "blueOrn" redScenario).houses = redScenario.houses :=
  ⟨Reachable.save _ (Reachable.openHouse _ Reachable.startup) (by decide) (by decide),
    C12_toggle_unknown_colour_adds_row.2.1 redScenario "green" "blueOrn" (by decide)
      (by decide) (by decide) (by decide) (by decide),
    C12_toggle_unknown_colour_adds_row.2.2.2.2 redScenario "green" "blueOrn"
      (Reachable.save _ (Reachable.openHouse _ Reachable.startup) (by decide) (by decide))
      (by decide) (by decide) (by decide)⟩

/-- C13: key completeness. In every reachable state (the startup state and any state after
house edits, colour deltas, bonus toggles and scoring rounds, while the numbers stay in
the exact range; toggles for any colour and key that are not inherited names are allowed,
so in particular those on palette colours and defined item keys), the items of every
house hold exactly the four keys of `ITEM_DEFS`, its cards exactly the three keys of
`CARD_DEFS`, and `COLOR_BONUSES` has for each of the four palette colours a row with an
entry for every key of `ITEM_DEFS`. -/
theorem C13_keys_complete (a : App) (ha : Reachable a) :
    (∀ h ∈ a.houses,
      Obj.keys h.items = ITEM_DEFS.map ItemDef.key ∧
      Obj.keys h.cards = CARD_DEFS.map CardDef.key) ∧
    (∀ color ∈ COLORS, ∃ row, Obj.get a.COLOR_BONUSES color = some row ∧
      ∀ d ∈ ITEM_DEFS, (Obj.get row d.key).isSome = true) := by
  apply reachable_induction_on_data
    (fun hs t =>
      (∀ h ∈ hs,
        Obj.keys h.items = ITEM_DEFS.map ItemDef.key ∧
        Obj.keys h.cards = CARD_DEFS.map CardDef.key) ∧
      (∀ color ∈ COLORS, ∃ row, Obj.get t color = some row ∧
        ∀ d ∈ ITEM_DEFS, (Obj.get row d.key).isSome = true)) _ _ _ _ _ _ a ha
  · refine ⟨by decide, ?_⟩
    intro color hc
    simp only [COLORS, List.mem_cons, List.mem_singleton, List.not_mem_nil, or_false] at hc
    rcases hc with rfl | rfl | rfl | rfl <;> exact ⟨zeroItems, by decide, by decide⟩
  · intro hs t i house inp hP hi
    refine ⟨?_, hP.2⟩
    intro h hh
    rcases List.mem_or_eq_of_mem_set hh with hold | hnew
    · exact hP.1 h hold
    · have hk := hP.1 house (List.getElem?_mem hi)
      rw [hnew]
      exact overwriteHouse_keys t inp house hk.1 hk.2
  · intro hs t C inp hP
    refine ⟨?_, hP.2⟩
    intro h hh
    obtain ⟨h0, hmem, rfl⟩ := List.mem_map.mp hh
    by_cases hc : h0.color = C
    · simp only [hc, ne_eq, not_true_eq_false, if_false]
      exact ⟨addToHouse_keys t inp h0 (hP.1 h0 hmem).1, (hP.1 h0 hmem).2⟩
    · simp only [hc, ne_eq, not_false_eq_true, if_true]
      exact hP.1 h0 hmem
  · intro hs t color hP
    refine ⟨hP.1, ?_⟩
    intro c hcmem
    obtain ⟨row, hrow, hall⟩ := hP.2 c hcmem
    by_cases hcc : c = color
    · subst hcc
      rw [ensureColorBonuses_of_get _ _ row hrow]
      exact ⟨row, hrow, hall⟩
    · rw [ensureColorBonuses_get_other t color c hcc]
      exact ⟨row, hrow, hall⟩
  · intro a color itemKey hc hk hP
    constructor
    · intro h hh
      rw [toggleColorBonus_houses color itemKey a hc hk] at hh
      obtain ⟨h0, hmem, rfl⟩ := List.mem_map.mp hh
      by_cases hcol : h0.color = color
      · simp only [hcol, if_true]
        exact hP.1 h0 hmem
      · simp only [hcol, if_false]
        exact hP.1 h0 hmem
    · intro c hcmem
      obtain ⟨row, hrow, hall⟩ := hP.2 c hcmem
      by_cases hcc : c = color
      · subst hcc
        rw [toggleColorBonus_get_self c itemKey a hc hk,
          ensureColorBonuses_of_get _ _ row hrow, hrow]
        refine ⟨_, rfl, ?_⟩
        intro d hd
        rw [Option.getD_some, Obj.get_set]
        by_cases hkd : itemKey = d.key
        · simp [hkd]
        · simp only [hkd, if_false]
          exact hall d hd
      · rw [toggleColorBonus_get_other color itemKey a c hcc]
        exact ⟨row, hrow, hall⟩
  · intro hs t hP
    refine ⟨?_, hP.2⟩
    intro h hh
    obtain ⟨h0, _, rfl⟩ := List.mem_map.mp hh
    exact ⟨(by decide : Obj.keys zeroItems = ITEM_DEFS.map ItemDef.key),
      (by decide : Obj.keys zeroCards = CARD_DEFS.map CardDef.key)⟩

/-- Witness of C13 on the red scenario after a pink colour delta, a toggle and a scoring
round: every house holds exactly the defined keys. -/
theorem C13_keys_complete_witness :
    Reachable (btnScoreRoundHandler (toggleColorBonus "pink" "blueOrn"
      (saveColorDelta "pink" [{ emptyInputs with blueOrn := JsVal.str "2" }]
        redScenario))).2 ∧
    ((btnScoreRoundHandler (toggleColorBonus "pink" "blueOrn"
      (saveColorDelta "pink" [{ emptyInputs with blueOrn := JsVal.str "2" }]
        redScenario))).2.houses.map (fun h => (Obj.keys h.items, Obj.keys h.cards))).all
      (fun p => p = (["redGift", "blueGift", "redOrn", "blueOrn"],
        ["x3RedAll", "x2BlueAll", "x4RedGift"])) = true :=
  have hr : Reachable (btnScoreRoundHandler (toggleColorBonus "pink" "blueOrn"
      (saveColorDelta "pink" [{ emptyInputs with blueOrn := JsVal.str "2" }]
        redScenario))).2 :=
    Reachable.scoreRound (Reachable.toggle _ _
      (Reachable.save _ (Reachable.openColor _
        (Reachable.save _ (Reachable.openHouse _ Reachable.startup) (by decide) (by decide)))
        (by decide) (by decide))
      (by decide) (by decide) (by decide))
  ⟨hr, by
    have h := (C13_keys_complete _ hr).1
    simp only [List.all_eq_true, List.mem_map, decide_eq_true_eq]
    rintro p ⟨x, hx, rfl⟩
    rw [(h x hx).1, (h x hx).2]
    rfl⟩

/-- C14: value ranges. In every reachable state (startup, then house edits, colour deltas,
bonus toggles for any colour and key that are not inherited names, scoring rounds, while
the numbers stay in the exact range), every house holds a non-negative integer under each
item key and each card key, every value stored anywhere in `COLOR_BONUSES` is 0 or 1, and
so the base value of every item in every house is 1 or 2. -/
theorem C14_values_in_range (a : App) (ha : Reachable a) :
    (∀ h ∈ a.houses,
      (∀ d ∈ ITEM_DEFS, ∃ n : Nat, Obj.get h.items d.key = some (Num.int (n : Int))) ∧
      (∀ c ∈ CARD_DEFS, ∃ n : Nat, Obj.get h.cards c.key = some (Num.int (n : Int)))) ∧
    (∀ p ∈ a.COLOR_BONUSES, ∀ q ∈ p.2, q.2 = Num.int 0 ∨ q.2 = Num.int 1) ∧
    (∀ h ∈ a.houses, ∀ d : ItemDef,
      baseValue a.COLOR_BONUSES h d = 1 ∨ baseValue a.COLOR_BONUSES h d = 2) := by
  have key : (∀ h ∈ a.houses,
      (∀ d ∈ ITEM_DEFS, isCount (Obj.get h.items d.key) = true) ∧
      (∀ c ∈ CARD_DEFS, isCount (Obj.get h.cards c.key) = true)) ∧
      (∀ p ∈ a.COLOR_BONUSES, ∀ q ∈ p.2, q.2 = Num.int 0 ∨ q.2 = Num.int 1) := by
    apply reachable_induction_on_data
      (fun hs t =>
        (∀ h ∈ hs,
          (∀ d ∈ ITEM_DEFS, isCount (Obj.get h.items d.key) = true) ∧
          (∀ c ∈ CARD_DEFS, isCount (Obj.get h.cards c.key) = true)) ∧
        (∀ p ∈ t, ∀ q ∈ p.2, q.2 = Num.int 0 ∨ q.2 = Num.int 1)) _ _ _ _ _ _ a ha
    · exact ⟨by decide, by decide⟩
    · intro hs t i house inp hP hi
      refine ⟨?_, hP.2⟩
      intro h hh
      rcases List.mem_or_eq_of_mem_set hh with hold | hnew
      · exact hP.1 h hold
      · rw [hnew]
        exact overwriteHouse_isCount t inp house
    · intro hs t C inp hP
      refine ⟨?_, hP.2⟩
      intro h hh
      obtain ⟨h0, hmem, rfl⟩ := List.mem_map.mp hh
      by_cases hc : h0.color = C
      · simp only [hc, ne_eq, not_true_eq_false, if_false]
        exact ⟨addToHouse_isCount t inp h0 (hP.1 h0 hmem).1, (hP.1 h0 hmem).2⟩
      · simp only [hc, ne_eq, not_false_eq_true, if_true]
        exact hP.1 h0 hmem
    · intro hs t color hP
      exact ⟨hP.1, ensureColorBonuses_binary t color hP.2⟩
    · intro a color itemKey hc hk hP
      refine ⟨?_, toggleColorBonus_binary color itemKey a hc hk hP.2⟩
      intro h hh
      rw [toggleColorBonus_houses color itemKey a hc hk] at hh
      obtain ⟨h0, hmem, rfl⟩ := List.mem_map.mp hh
      by_cases hcol : h0.color = color
      · simp only [hcol, if_true]
        exact hP.1 h0 hmem
      · simp only [hcol, if_false]
        exact hP.1 h0 hmem
    · intro hs t hP
      refine ⟨?_, hP.2⟩
      intro h hh
      obtain ⟨h0, _, rfl⟩ := List.mem_map.mp hh
      exact ⟨(by decide : ∀ d ∈ ITEM_DEFS, isCount (Obj.get zeroItems d.key) = true),
        (by decide : ∀ c ∈ CARD_DEFS, isCount (Obj.get zeroCards c.key) = true)⟩
  refine ⟨?_, key.2, ?_⟩
  · intro h hh
    exact ⟨fun d hd => (isCount_iff_nat _).mp ((key.1 h hh).1 d hd),
      fun c hc => (isCount_iff_nat _).mp ((key.1 h hh).2 c hc)⟩
  · intro h _ d
    exact baseValue_one_or_two a.COLOR_BONUSES h d key.2

/-- Witness of C14: after the red scenario, a red colour delta with the inputs `-4` and
`3`, and two toggles of red/redGift followed by one of red/redOrn, the stored bonuses are
0 or 1 and the base values of the first red house are 1 except for `redOrn`, which is 2. -/
theorem C14_values_in_range_witness :
    Reachable (toggleColorBonus "red" "redOrn" (toggleColorBonus "red" "redGift"
      (toggleColorBonus "red" "redGift"
        (saveColorDelta "red"
          [{ emptyInputs with redGift := JsVal.str "-4", redOrn := JsVal.str "3" }]
          redScenario)))) ∧
    (∀ p ∈ (toggleColorBonus "red" "redOrn" (toggleColorBonus "red" "redGift"
      (toggleColorBonus "red" "redGift"
        (saveColorDelta "red"
          [{ emptyInputs with redGift := JsVal.str "-4", redOrn := JsVal.str "3" }]
          redScenario)))).COLOR_BONUSES, ∀ q ∈ p.2, q.2 = Num.int 0 ∨ q.2 = Num.int 1) ∧
    ((toggleColorBonus "red" "redOrn" (toggleColorBonus "red" "redGift"
      (toggleColorBonus "red" "redGift"
        (saveColorDelta "red"
          [{ emptyInputs with redGift := JsVal.str "-4", redOrn := JsVal.str "3" }]
          redScenario)))).houses.map
        (fun h => (ITEM_DEFS.map (fun d => itemCount h d.key), h.points))) =
      [ ([0, 0, 0, 0], 0), ([0, 0, 0, 0], 0), ([2, 0, 3, 0], 14), ([0, 0, 0, 0], 0),
        ([0, 0, 0, 0], 0), ([0, 0, 0, 0], 0), ([0, 0, 3, 0], 6), ([0, 0, 0, 0], 0) ] :=
  have hr : Reachable (toggleColorBonus "red" "redOrn" (toggleColorBonus "red" "redGift"
      (toggleColorBonus "red" "redGift"
        (saveColorDelta "red"
          [{ emptyInputs with redGift := JsVal.str "-4", redOrn := JsVal.str "3" }]
          redScenario)))) :=
    Reachable.toggle _ _ (Reachable.toggle _ _ (Reachable.toggle _ _
      (Reachable.save _ (Reachable.openColor _
        (Reachable.save _ (Reachable.openHouse _ Reachable.startup) (by decide) (by decide)))
        (by decide) (by decide))
      (by decide) (by decide) (by decide))
      (by decide) (by decide) (by decide))
      (by decide) (by decide) (by decide)
  ⟨hr, (C14_values_in_range _ hr).2.1, by decide⟩

/-- C16: cache coherence. In every reachable state (the startup state and the state after
any house edit, colour delta, bonus toggle or scoring round, while the numbers stay in the
exact range and toggles use names that are not inherited) the `points` field of every
house equals the scoring formula on the house's current items, cards and colour bonus. A
bonus toggle recomputes exactly the houses of the toggled colour and the score of every
other house is the same under the new table; a Save click in the colour modal recomputes
exactly the houses of its colour and leaves the table and the other houses as they are. On
the red scenario a recomputed house does change: toggling red/redGift moves house 2 from 8
to 16, and a red delta of one red gift moves it from 8 to 12. -/
theorem C16_points_cache_coherent :
    (∀ a : App, Reachable a → ∀ h ∈ a.houses,
      h.points = housePoints a.COLOR_BONUSES h ∧ h.points = specPoints a.COLOR_BONUSES h) ∧
    (∀ (app : App) (color itemKey : String), color ≠ "" → itemKey ≠ "" →
      color ∉ objectPrototypeNames → itemKey ∉ objectPrototypeNames →
      (toggleColorBonus color itemKey app).houses =
        app.houses.map (fun h =>
          if h.color = color then
            { h with points := housePoints (toggleColorBonus color itemKey app).COLOR_BONUSES h }
          else h) ∧
      ∀ h : House, h.color ≠ color →
        housePoints (toggleColorBonus color itemKey app).COLOR_BONUSES h =
          housePoints app.COLOR_BONUSES h) ∧
    (∀ (app : App) (C : String) (inp : Inputs) (rest : List Inputs),
      app.modalMode = "color" → app.currentColor = some C → C ≠ "" →
      (btnSaveClick (inp :: rest) app).COLOR_BONUSES = app.COLOR_BONUSES ∧
      (btnSaveClick (inp :: rest) app).houses =
        app.houses.map (fun h =>
          if h.color ≠ C then h else addToHouse app.COLOR_BONUSES inp h) ∧
      ∀ h : House, (addToHouse app.COLOR_BONUSES inp h).points =
        housePoints app.COLOR_BONUSES (addToHouse app.COLOR_BONUSES inp h)) ∧
    (redScenario.houses.map House.points = [0, 0, 8, 0, 0, 0, 0, 0] ∧
      (toggleColorBonus "red" "redGift" redScenario).houses.map House.points =
        [0, 0, 16, 0, 0, 0, 0, 0] ∧
      (saveColorDelta "red" [{ emptyInputs with redGift := JsVal.str "1" }]
        redScenario).houses.map House.points = [0, 0, 12, 0, 0, 0, 1, 0]) := by
  refine ⟨?_, ?_, ?_, by decide⟩
  · intro a ha h hh
    have hp := reachable_coherent a ha h hh
    exact ⟨hp, by rw [hp, housePoints_eq_spec]⟩
  · intro app color itemKey hc hk _ _
    exact ⟨toggleColorBonus_houses color itemKey app hc hk,
      fun h hne => housePoints_toggle_other color itemKey app h hne⟩
  · intro app C inp rest hm hcur hC
    rw [btnSaveClick_color C inp rest app hm hcur hC]
    exact ⟨rfl, rfl, fun h => rfl⟩

/-- Witness of C16: after the red scenario, a toggle of red/redOrn, an orange delta of two
blue ornaments, a failed edit of house 9 and a toggle of orange/blueOrn, the cached points
are the scores: 4 for the orange houses and 8 for the first red house. -/
theorem C16_points_cache_coherent_witness :
    Reachable (toggleColorBonus "orange" "blueOrn"
      (saveHouseEdit (Num.int 9) [emptyInputs]
        (saveColorDelta "orange" [{ emptyInputs with blueOrn := JsVal.str "2" }]
          (toggleColorBonus "red" "redOrn" redScenario)))) ∧
    (∀ h ∈ (toggleColorBonus "orange" "blueOrn"
      (saveHouseEdit (Num.int 9) [emptyInputs]
        (saveColorDelta "orange" [{ emptyInputs with blueOrn := JsVal.str "2" }]
          (toggleColorBonus "red" "redOrn" redScenario)))).houses,
      h.points = housePoints (toggleColorBonus "orange" "blueOrn"
        (saveHouseEdit (Num.int 9) [emptyInputs]
          (saveColorDelta "orange" [{ emptyInputs with blueOrn := JsVal.str "2" }]
            (toggleColorBonus "red" "redOrn" redScenario)))).COLOR_BONUSES h) ∧
    (toggleColorBonus "orange" "blueOrn"
      (saveHouseEdit (Num.int 9) [emptyInputs]
        (saveColorDelta "orange" [{ emptyInputs with blueOrn := JsVal.str "2" }]
          (toggleColorBonus "red" "redOrn" redScenario)))).houses.map House.points =
      [4, 0, 8, 0, 4, 0, 0, 0] :=
  have hr : Reachable (toggleColorBonus "orange" "blueOrn"
      (saveHouseEdit (Num.int 9) [emptyInputs]
        (saveColorDelta "orange" [{ emptyInputs with blueOrn := JsVal.str "2" }]
          (toggleColorBonus "red" "redOrn" redScenario)))) :=
    Reachable.toggle _ _ (Reachable.save _ (Reachable.openHouse _
      (Reachable.save _ (Reachable.openColor _ (Reachable.toggle _ _
        (Reachable.save _ (Reachable.openHouse _ Reachable.startup) (by decide) (by decide))
        (by decide) (by decide) (by decide)))
        (by decide) (by decide)))
      (by decide) (by decide))
      (by decide) (by decide) (by decide)
  ⟨hr, fun h hh => (C16_points_cache_coherent.1 _ hr h hh).1, by decide⟩

end Grinchmas
